import Mathlib

/-!
File-sharing backend: authorization gate, share links and lookup cache

A shallow embedding of the Go handlers of the repository
(`server/internal/auth/auth.go`, `server/internal/middleware/auth.go`,
`server/internal/file/handler.go`) and theorems about them.

Conventions of the embedding.

* A Go `string` is a Lean `String`.  Where the source slices a string by byte
  offsets (`authHeader[0:7]`, `authHeader[7:]`) the embedding slices the list
  of characters.  The two agree on every string: the slice is only used when
  its first seven bytes fold to the ASCII text `Bearer `, in which case byte
  offsets and character offsets coincide, and when one of the first seven
  characters is not ASCII both tests fail.
* A `time.Time` is an `Int`: nanoseconds since the Unix epoch.
* The relational database, the Redis cache and the blob store are explicit
  state values.  Every call that can fail in the source takes its outcome
  from an environment record, so that the error branches of the source are
  kept.
* Third-party libraries (gin, golang-jwt, bcrypt, uuid) are not part of the
  repository.  What a handler reads from the gin context is an input of the
  embedding; the libraries are parameters or documented models.
-/

set_option autoImplicit false

namespace FileShare

/-! ## Strings -/

/-- Simple case folding of one character as used by `strings.EqualFold` when
the other side is one of the characters of `Bearer `: the letters `b`, `e`,
`a`, `r` fold only with their ASCII upper-case forms, the blank only with
itself. -/
def foldEq (a b : Char) : Bool :=
  a.toLower == b.toLower

/-- Model of `strings.EqualFold s t` for an ASCII text `t`. -/
def EqualFold : List Char → List Char → Bool
  | [], [] => true
  | a :: s, b :: t => foldEq a b && EqualFold s t
  | _, _ => false

/-! ## The gin request, as far as the handlers read it -/

/-- What `extractToken` reads from a `*gin.Context`. -/
structure Request where
  /-- Result of `c.GetHeader("Authorization")` (empty when absent). -/
  authorization : String
  /-- Result of `c.Query("token")` (empty when absent). -/
  queryToken : String
  /-- Result of `c.PostForm("token")` (empty when absent). -/
  postFormToken : String
  /-- Result of `c.MultipartForm()`: `none` when the form is `nil`, otherwise
  the slice `form.Value["token"]`. -/
  multipartTokens : Option (List String)
  deriving DecidableEq, Repr

namespace auth

/-- The function `extractToken` of `internal/auth/auth.go`. -/
def extractToken (c : Request) : String :=
  let authHeader := c.authorization
  if authHeader.data.length > 7 && EqualFold (authHeader.data.take 7) "Bearer ".data then
    ⟨authHeader.data.drop 7⟩
  else
    let token := c.queryToken
    if token != "" then token
    else
      let token := c.postFormToken
      if token != "" then token
      else
        match c.multipartTokens with
        | some tokens =>
          match tokens with
          | t :: _ => t
          | [] => ""
        | none => ""

end auth

namespace middleware

/-- The function `extractToken` of `internal/middleware/auth.go`. -/
def extractToken (c : Request) : String :=
  let bearerToken := c.authorization
  if bearerToken.data.length > 7 && EqualFold (bearerToken.data.take 7) "Bearer ".data then
    ⟨bearerToken.data.drop 7⟩
  else
    let token := c.queryToken
    if token != "" then token
    else
      let token := c.postFormToken
      if token != "" then token
      else
        match c.multipartTokens with
        | some tokens =>
          match tokens with
          | t :: _ => t
          | [] => ""
        | none => ""

end middleware

/-! ### The extraction contract, in the words of the specification -/

/-- Candidate carried by the `Authorization` header: the text after the
seven-character scheme when the scheme matches `Bearer ` without regard to
case, empty otherwise. -/
def bearerCandidate (c : Request) : String :=
  if EqualFold (c.authorization.data.take 7) "Bearer ".data then
    ⟨c.authorization.data.drop 7⟩
  else ""

/-- Candidate carried by the multipart form: the first `token` value. -/
def multipartCandidate (c : Request) : String :=
  match c.multipartTokens with
  | some (t :: _) => t
  | _ => ""

/-- The four candidates in precedence order. -/
def candidates (c : Request) : List String :=
  [bearerCandidate c, c.queryToken, c.postFormToken, multipartCandidate c]

/-- First non-empty string of a list, the empty string when there is none. -/
def firstNonEmpty : List String → String
  | [] => ""
  | s :: rest => if s = "" then firstNonEmpty rest else s

/-! ## Time, JSON values, responses and the gin context -/

/-- A `time.Time`: nanoseconds since the Unix epoch. -/
abbrev Time := Int

/-- One second, in nanoseconds (`time.Second`). -/
def Second : Int := 1000000000

/-- One hour, in nanoseconds (`time.Hour`). -/
def Hour : Int := 3600 * Second

/-- The method `Time.Unix`: whole seconds since the epoch, rounded down. -/
def Time.Unix (t : Time) : Int := t / Second

/-- The zero `time.Time` (January 1, year 1, 00:00 UTC), for which `IsZero`
reports true. -/
def zeroTime : Time := -62135596800 * Second

/-- A JSON value as written by `c.JSON` or `json.Marshal`.  `quot n d` stands
for the number `n / d` where the source writes a `float64`. -/
inductive JSON where
  | null
  | bool (b : Bool)
  | num (n : Int)
  | quot (n d : Int)
  | str (s : String)
  /-- A text `t.Format(time.RFC3339)`. -/
  | rfc3339 (t : Int)
  /-- A `time.Time` as `json.Marshal` writes it. -/
  | rfc3339nano (t : Int)
  | arr (items : List JSON)
  | obj (fields : List (String × JSON))

/-- Payload of a response. -/
inductive Body where
  /-- Nothing written. -/
  | empty
  /-- Written by `c.JSON` or `c.AbortWithStatusJSON`. -/
  | json (j : JSON)
  /-- Written by `c.Data`: a content type and the bytes. -/
  | data (contentType : String) (bytes : String)
  /-- Written by `c.File`: the file at this path is served. -/
  | file (path : String)

/-- What a handler writes: status code, the headers it sets itself, payload. -/
structure Response where
  status : Nat
  headers : List (String × String)
  body : Body

/-- The body `gin.H{"error": msg}`. -/
def errorBody (msg : String) : Body :=
  .json (.obj [("error", .str msg)])

/-- The part of `*gin.Context` the authorization gate touches. -/
structure Context where
  /-- The incoming request. -/
  Request : Request
  /-- The map `c.Keys`, most recent binding first. -/
  Keys : List (String × String)
  /-- Whether the handler chain has been aborted. -/
  aborted : Bool
  /-- The response written so far, if any. -/
  response : Option Response

/-- The method `c.AbortWithStatusJSON(code, gin.H{"error": msg})`. -/
def Context.AbortWithStatusJSON (c : Context) (code : Nat) (msg : String) : Context :=
  { c with aborted := true, response := some ⟨code, [], errorBody msg⟩ }

/-- The method `c.Set(key, value)`. -/
def Context.Set (c : Context) (key value : String) : Context :=
  { c with Keys := (key, value) :: c.Keys }

/-- The method `c.Get(key)`. -/
def Context.Get (c : Context) (key : String) : Option String :=
  c.Keys.lookup key

/-- The constant `http.StatusUnauthorized`. -/
def StatusUnauthorized : Nat := 401

/-! ## The JWT library, as a parameter -/

/-- Signing methods of `golang-jwt`; the first three are values of type
`*jwt.SigningMethodHMAC`. -/
inductive SigningMethod where
  | HS256 | HS384 | HS512 | RS256 | ES256 | unsecured
  deriving DecidableEq, Repr

/-- The type assertion `token.Method.(*jwt.SigningMethodHMAC)`. -/
def SigningMethod.isHMAC : SigningMethod → Bool
  | .HS256 | .HS384 | .HS512 => true
  | _ => false

/-- A value held in a `jwt.MapClaims` (`interface{}`). -/
inductive ClaimValue where
  | str (s : String)
  | num (n : Int)
  | bool (b : Bool)
  | null
  | composite
  deriving DecidableEq, Repr

/-- The type `jwt.MapClaims`. -/
abbrev MapClaims := List (String × ClaimValue)

/-- The interface value `token.Claims`. -/
inductive Claims where
  | mapClaims (m : MapClaims)
  | other
  deriving DecidableEq, Repr

/-- The fields of `jwt.Token` the handlers read. -/
structure Token where
  Method : SigningMethod
  Claims : Claims
  Valid : Bool
  deriving DecidableEq, Repr

/-- The two entry points of `github.com/golang-jwt/jwt/v5` the repository
calls.  `Parse` receives the instant its internal `time.Now()` returns. -/
structure JWT where
  Parse : String → Time → (Token → Except String String) → Except String Token
  SignedString : SigningMethod → MapClaims → String → Except String String

/-! ## The database -/

/-- A row of `users`. -/
structure UserRow where
  id : String
  email : String
  password_hash : String
  deriving DecidableEq, Repr

/-- A row of `auth_tokens`. -/
structure AuthTokenRow where
  user_id : String
  token : String
  expires_at : Time
  deriving DecidableEq, Repr

/-- A row of `files`. -/
structure FileRow where
  id : String
  user_id : String
  name : String
  original_name : String
  storage_path : String
  size : Int
  mime_type : String
  is_public : Bool
  url : String
  created_at : Time
  deriving DecidableEq, Repr

/-- A row of `file_shares`. -/
structure FileShareRow where
  file_id : String
  token : String
  expires_at : Time
  deriving DecidableEq, Repr

/-- The tables.  Identifier columns hold canonical text and are compared with
a query parameter by equality of text; a parameter the database cannot read
as the column type makes the query fail, which is the query-error outcome of
the environment. -/
structure DB where
  users : List UserRow
  auth_tokens : List AuthTokenRow
  files : List FileRow
  file_shares : List FileShareRow
  deriving DecidableEq, Repr

/-- Result of a `db.Get(&count, ...)` whose query counts rows: the driver
error when the call fails, the count otherwise. -/
def dbGetCount (err : Bool) (n : Nat) : Except String Nat :=
  if err then .error "database error" else .ok n

/-- The result of `db.Get` on a row query: an error when the call fails or
when there is no row, the first row otherwise. -/
def dbGetRow {α : Type} (err : Bool) (rows : List α) : Except String α :=
  if err then .error "database error"
  else
    match rows with
    | [] => .error "sql: no rows in result set"
    | r :: _ => .ok r

/-- The query `SELECT COUNT(*) FROM auth_tokens WHERE token = $1 AND
user_id = $2 AND expires_at > NOW()`. -/
def DB.countLiveTokens (db : DB) (now : Time) (token userID : String) : Nat :=
  (db.auth_tokens.filter fun r =>
    r.token == token && r.user_id == userID && decide (r.expires_at > now)).length

/-! ## `internal/auth/auth.go` -/

namespace auth

/-- The struct `AuthHandler`; the database handle is the explicit `DB` state.
`tokenDuration` is a `time.Duration`, in nanoseconds. -/
structure AuthHandler where
  jwtSecret : String
  tokenDuration : Int
  deriving DecidableEq, Repr

/-- The key function `VerifyToken` hands to `jwt.Parse`. -/
def keyFunc (h : AuthHandler) (token : Token) : Except String String :=
  if !token.Method.isHMAC then .error "unexpected signing method"
  else .ok h.jwtSecret

/-- The method `AuthHandler.VerifyToken`. -/
def VerifyToken (lib : JWT) (h : AuthHandler) (now : Time) (tokenString : String) :
    Except String Token :=
  match lib.Parse tokenString now (keyFunc h) with
  | .error err => .error err
  | .ok token =>
    if !token.Valid then .error "invalid token"
    else .ok token

/-- What the environment decides during one run of the gate. -/
structure GateEnv where
  /-- The instant `time.Now()` returns inside `jwt.Parse`. -/
  now : Time
  /-- The instant `NOW()` denotes in the registry query. -/
  dbNow : Time
  /-- Whether the registry query returns an error. -/
  dbErr : Bool
  deriving DecidableEq, Repr

/-- The handler returned by `AuthHandler.AuthMiddleware`.  `next` is the rest
of the handler chain, run by `c.Next()`. -/
def AuthMiddleware (lib : JWT) (h : AuthHandler) (db : DB) (env : GateEnv)
    (next : Context → Context) (c : Context) : Context :=
  let tokenString := extractToken c.Request
  if tokenString == "" then
    c.AbortWithStatusJSON StatusUnauthorized "authorization token required"
  else
    match VerifyToken lib h env.now tokenString with
    | .error _ => c.AbortWithStatusJSON StatusUnauthorized "invalid token"
    | .ok token =>
      match token.Claims with
      | .other => c.AbortWithStatusJSON StatusUnauthorized "invalid token claims"
      | .mapClaims claims =>
        match claims.lookup "sub" with
        | some (.str userID) =>
          match dbGetCount env.dbErr (db.countLiveTokens env.dbNow tokenString userID) with
          | .error _ =>
            c.AbortWithStatusJSON StatusUnauthorized "invalid or expired token"
          | .ok count =>
            if count == 0 then
              c.AbortWithStatusJSON StatusUnauthorized "invalid or expired token"
            else
              next (c.Set "userID" userID)
        | _ => c.AbortWithStatusJSON StatusUnauthorized "invalid user ID in token"

end auth

/-! ## Paths (`path/filepath`, Unix) -/

/-- Scan of `filepath.Ext` from the end of the path: `rev` is what is left to
scan, last character first, `acc` what has been passed. -/
def extScan : List Char → List Char → List Char
  | [], _ => []
  | ch :: rest, acc =>
    if ch = '/' then []
    else if ch = '.' then '.' :: acc
    else extScan rest (ch :: acc)

/-- The function `filepath.Ext`: the suffix beginning at the final dot of the
final element of the path, empty when there is no dot. -/
def Ext (path : String) : String :=
  ⟨extScan path.data.reverse []⟩

/-- The elements of a path between slashes. -/
def splitSlash : List Char → List (List Char)
  | [] => [[]]
  | ch :: rest =>
    match splitSlash rest with
    | [] => [[ch]]
    | seg :: segs => if ch = '/' then [] :: seg :: segs else (ch :: seg) :: segs

/-- One element of the lexical processing of `filepath.Clean`; `stack` holds
the elements kept so far, last first. -/
def cleanStep (rooted : Bool) (stack : List String) (elem : String) : List String :=
  if elem = "" ∨ elem = "." then stack
  else if elem = ".." then
    match stack with
    | top :: rest => if top = ".." then elem :: stack else rest
    | [] => if rooted then [] else [elem]
  else elem :: stack

/-- The function `filepath.Clean`. -/
def Clean (path : String) : String :=
  if path = "" then "."
  else
    let rooted := path.data.head? == some '/'
    let elems := (splitSlash path.data).map String.mk
    let kept := (elems.foldl (cleanStep rooted) []).reverse
    let out := (if rooted then "/" else "") ++ String.intercalate "/" kept
    if out = "" then "." else out

/-- The function `filepath.Join`: the non-empty elements joined by a slash,
then cleaned; empty when every element is empty. -/
def Join (elems : List String) : String :=
  let ne := elems.filter (· ≠ "")
  if ne = [] then "" else Clean (String.intercalate "/" ne)

/-- The elements `filepath.Clean` keeps for a path, last first. -/
def cleanStack (rooted : Bool) (path : List Char) : List String :=
  ((splitSlash path).map String.mk).foldl (cleanStep rooted) []

/-- An element of a path that `filepath.Clean` keeps as it is: not empty, free
of slashes, and neither `.` nor `..`. -/
def plainElem (s : String) : Prop :=
  '/' ∉ s.data ∧ s ≠ "" ∧ s ≠ "." ∧ s ≠ ".."

/-! ## Identifiers (`github.com/google/uuid`) -/

/-- A lower-case hexadecimal digit. -/
def isHexDigit (c : Char) : Bool :=
  c.isDigit || (decide ('a' ≤ c) && decide (c ≤ 'f'))

/-- The texts `UUID.String` returns: 36 characters, hyphens at the offsets 8,
13, 18 and 23 and nowhere else, lower-case hexadecimal digits elsewhere. -/
def isUUIDText (s : String) : Bool :=
  s.data.length == 36 &&
  s.data.all (fun c => isHexDigit c || c == '-') &&
  (s.data.filter (· == '-')).length == 4 &&
  s.data.get? 8 == some '-' && s.data.get? 13 == some '-' &&
  s.data.get? 18 == some '-' && s.data.get? 23 == some '-'

/-! ## The cache, the blob store and the state of the file service -/

/-- An entry of the Redis cache with the instant at which it expires. -/
structure CacheEntry where
  key : String
  value : String
  expires_at : Time
  deriving DecidableEq, Repr

/-- The Redis cache. -/
abbrev Redis := List CacheEntry

/-- The call `redisClient.Get(ctx, key).Result()`: the value of a live entry,
`none` when the key is absent or expired or when the call fails (`err`). -/
def Redis.Get (r : Redis) (now : Time) (err : Bool) (key : String) : Option String :=
  if err then none
  else (r.find? fun e => e.key == key && decide (now < e.expires_at)).map (·.value)

/-- The call `redisClient.Set(ctx, key, value, ttl)`, whose result the source
ignores: nothing changes when the call fails. -/
def Redis.Set (r : Redis) (now : Time) (err : Bool) (key value : String) (ttl : Int) : Redis :=
  if err then r
  else ⟨key, value, now + ttl⟩ :: r.filter fun e => e.key != key

/-- The blob store: the directories made and the files written. -/
structure BlobStore where
  dirs : List String
  files : List (String × String)
  deriving DecidableEq, Repr

/-- The call `os.MkdirAll(path, 0755)` when it succeeds. -/
def BlobStore.MkdirAll (b : BlobStore) (path : String) : BlobStore :=
  if path ∈ b.dirs then b else { b with dirs := path :: b.dirs }

/-- The call `c.SaveUploadedFile(file, dst)` when it succeeds. -/
def BlobStore.Save (b : BlobStore) (dst content : String) : BlobStore :=
  { b with files := (dst, content) :: b.files.filter fun f => f.1 != dst }

/-- The call `os.Remove(path)`. -/
def BlobStore.Remove (b : BlobStore) (path : String) : BlobStore :=
  { b with files := b.files.filter fun f => f.1 != path }

/-- Everything the file handlers read and write. -/
structure State where
  db : DB
  cache : Redis
  blobs : BlobStore
  deriving DecidableEq, Repr

/-- Library functions the file handlers call: `uuid.Parse` followed by
`UUID.String` (the canonical text of an identifier, `none` when the text is
not an identifier) and `json.Marshal`. -/
structure Lib where
  uuidParse : String → Option String
  Marshal : JSON → String

/-- The multipart part returned by `c.FormFile("file")`. -/
structure FileHeader where
  Filename : String
  Size : Int
  /-- The slice `file.Header["Content-Type"]`. -/
  ContentType : List String
  /-- The bytes of the part. -/
  content : String
  deriving DecidableEq, Repr

/-! ## `internal/file/handler.go` -/

namespace file

/-- The struct `FileHandler`; database and cache are in the `State`. -/
structure FileHandler where
  storageDir : String
  deriving DecidableEq, Repr

/-- What the environment decides during one run of `Upload`. -/
structure UploadEnv where
  /-- The error of `os.MkdirAll`, if it fails. -/
  mkdirErr : Option String
  /-- The error of `c.SaveUploadedFile`, if it fails. -/
  saveErr : Option String
  /-- The error of `h.db.Beginx`, if it fails. -/
  beginErr : Option String
  /-- The error of the `INSERT INTO files`, if it fails. -/
  execErr : Option String
  /-- The error of `tx.Commit`, if it fails. -/
  commitErr : Option String
  /-- The text of the first `uuid.New()`, the stem of the stored name. -/
  nameID : String
  /-- The text of the second `uuid.New()`, the id of the row. -/
  fileID : String
  /-- The instant `time.Now()` returns for the response. -/
  now : Time
  /-- The instant the database records as `created_at`. -/
  dbNow : Time
  deriving DecidableEq, Repr

/-- The body `gin.H{"error": msg, key: detail}` of the failures of `Upload`
that carry the text of the underlying error. -/
def detailBody (msg key detail : String) : Body :=
  .json (.obj [("error", .str msg), (key, .str detail)])

/-- The method `FileHandler.Upload`.  `userIDString` is the value
`c.MustGet("userID").(string)` bound by the gate, `form` the result of
`c.FormFile("file")`. -/
def Upload (lib : Lib) (h : FileHandler) (env : UploadEnv) (userIDString : String)
    (form : Except String FileHeader) (s : State) : Response × State :=
  match lib.uuidParse userIDString with
  | none => (⟨400, [], errorBody "Invalid user ID format"⟩, s)
  | some userID =>
    match form with
    | .error _ => (⟨400, [], errorBody "No file uploaded"⟩, s)
    | .ok file =>
      if file.Size == 0 then (⟨400, [], errorBody "File cannot be empty"⟩, s)
      else
        let userDir := Join [h.storageDir, userID]
        match env.mkdirErr with
        | some err =>
          (⟨500, [], detailBody "Failed to create user directory" "details" err⟩, s)
        | none =>
          let s1 := { s with blobs := s.blobs.MkdirAll userDir }
          let fileExt := Ext file.Filename
          let newFilename := env.nameID ++ fileExt
          let storagePath := Join [userID, newFilename]
          let fullPath := Join [h.storageDir, storagePath]
          match env.saveErr with
          | some err => (⟨500, [], detailBody "Failed to save file" "details" err⟩, s1)
          | none =>
            let s2 := { s1 with blobs := s1.blobs.Save fullPath file.content }
            let mimeType :=
              match file.ContentType with
              | m :: _ => m
              | [] => "application/octet-stream"
            let removed := { s2 with blobs := s2.blobs.Remove fullPath }
            match env.beginErr with
            | some _ => (⟨500, [], errorBody "Failed to start transaction"⟩, removed)
            | none =>
              let url := "/files/" ++ env.fileID
              match env.execErr with
              | some err =>
                (⟨500, [], detailBody "Failed to store file metadata" "database_error" err⟩,
                  removed)
              | none =>
              match env.commitErr with
              | some err =>
                (⟨500, [], detailBody "Transaction failed" "commit_error" err⟩, removed)
              | none =>
                let row : FileRow :=
                  ⟨env.fileID, userID, newFilename, file.Filename, storagePath, file.Size,
                    mimeType, false, url, env.dbNow⟩
                (⟨200, [], .json (.obj [
                    ("file", .obj [
                      ("id", .str env.fileID),
                      ("user_id", .str userID),
                      ("name", .str newFilename),
                      ("path", .str storagePath),
                      ("size", .num file.Size),
                      ("mime_type", .str mimeType),
                      ("created_at", .rfc3339 env.now),
                      ("is_public", .bool false)]),
                    ("message", .str "File uploaded successfully"),
                    ("url", .str url)])⟩,
                  { s2 with db := { s2.db with files := s2.db.files ++ [row] } })

/-- The local type `fileResponse` of `GetUserFiles`. -/
structure fileResponse where
  ID : String
  Name : String
  OriginalName : String
  Size : Int
  MimeType : String
  StoragePath : String
  CreatedAt : Time
  deriving DecidableEq, Repr

/-- The query of `GetUserFiles`: the rows of `files` of one user, newest
first. -/
def selectUserFiles (db : DB) (userID : String) : List fileResponse :=
  ((db.files.filter fun f => f.user_id == userID).insertionSort
      fun a b => a.created_at ≥ b.created_at).map
    fun f => ⟨f.id, f.name, f.original_name, f.size, f.mime_type, f.storage_path, f.created_at⟩

/-- One `fileResponse` as the JSON object its field tags describe. -/
def fileResponse.toJSON (f : fileResponse) : JSON :=
  .obj [("id", .str f.ID), ("name", .str f.Name), ("filename", .str f.OriginalName),
    ("size", .num f.Size), ("mime_type", .str f.MimeType), ("path", .str f.StoragePath),
    ("created_at", .rfc3339nano f.CreatedAt)]

/-- The value `json.Marshal(files)` serialises.  The slice is declared with
`var files []fileResponse` and `db.Select` appends one element per row, so a
result without rows leaves it `nil`, which is written as `null`. -/
def filesJSON (files : List fileResponse) : JSON :=
  match files with
  | [] => .null
  | _ :: _ => .arr (files.map fileResponse.toJSON)

/-- What the environment decides during one run of `GetUserFiles`. -/
structure ListEnv where
  now : Time
  /-- Whether the cache read fails. -/
  cacheGetErr : Bool
  /-- Whether `h.db.Select` fails. -/
  selectErr : Bool
  /-- Whether `json.Marshal` fails. -/
  marshalErr : Bool
  /-- Whether the cache write fails. -/
  cacheSetErr : Bool
  deriving DecidableEq, Repr

/-- Five minutes, the lifetime of a cached listing. -/
def listingTTL : Int := 5 * (60 * Second)

/-- The method `FileHandler.GetUserFiles`. -/
def GetUserFiles (lib : Lib) (env : ListEnv) (userIDString : String) (s : State) :
    Response × State :=
  match lib.uuidParse userIDString with
  | none => (⟨400, [], errorBody "Invalid user ID format"⟩, s)
  | some userID =>
    let cacheKey := "user_files:" ++ userID
    match s.cache.Get env.now env.cacheGetErr cacheKey with
    | some val => (⟨200, [], .data "application/json" val⟩, s)
    | none =>
      if env.selectErr then (⟨500, [], errorBody "Failed to get files"⟩, s)
      else
        let files := selectUserFiles s.db userID
        if env.marshalErr then (⟨500, [], errorBody "Failed to marshal files"⟩, s)
        else
          let jsonData := lib.Marshal (filesJSON files)
          (⟨200, [], .data "application/json" jsonData⟩,
            { s with cache := s.cache.Set env.now env.cacheSetErr cacheKey jsonData listingTTL })

end file

namespace file

/-- What the environment decides during one run of `CreateShareLink`. -/
structure ShareEnv where
  now : Time
  /-- Whether the ownership query fails. -/
  countErr : Bool
  /-- Whether the `INSERT INTO file_shares` fails. -/
  insertErr : Bool
  /-- The text of `uuid.New()`. -/
  token : String
  deriving DecidableEq, Repr

/-- The query `SELECT COUNT(*) FROM files WHERE id = $1 AND user_id = $2`. -/
def countOwnedFiles (db : DB) (fileID userID : String) : Nat :=
  (db.files.filter fun f => f.id == fileID && f.user_id == userID).length

/-- Seven days, the lifetime of a share link. -/
def shareLifetime : Int := 7 * 24 * Hour

/-- The method `FileHandler.CreateShareLink`.  `userID` is
`c.GetString("userID")`, `fileID` is `c.Param("file_id")`. -/
def CreateShareLink (env : ShareEnv) (userID fileID : String) (s : State) :
    Response × State :=
  match dbGetCount env.countErr (countOwnedFiles s.db fileID userID) with
  | .error _ => (⟨404, [], errorBody "File not found"⟩, s)
  | .ok count =>
    if count == 0 then (⟨404, [], errorBody "File not found"⟩, s)
    else
      let token := env.token
      let expiresAt := env.now + shareLifetime
      if env.insertErr then (⟨500, [], errorBody "Failed to create share link"⟩, s)
      else
        (⟨200, [], .json (.obj [("share_url", .str ("/share/" ++ token)),
            ("expires_at", .rfc3339 expiresAt)])⟩,
          { s with db := { s.db with
              file_shares := s.db.file_shares ++ [⟨fileID, token, expiresAt⟩] } })

/-- The row type scanned by `ServeSharedFile`. -/
structure sharedFile where
  StoragePath : String
  Name : String
  MimeType : String
  ExpiresAt : Time
  deriving DecidableEq, Repr

/-- The query `SELECT f.storage_path, f.name, f.mime_type, s.expires_at FROM
file_shares s JOIN files f ON s.file_id = f.id WHERE s.token = $1`. -/
def selectShared (db : DB) (token : String) : List sharedFile :=
  (db.file_shares.filter fun sh => sh.token == token).flatMap fun sh =>
    (db.files.filter fun f => f.id == sh.file_id).map fun f =>
      ⟨f.storage_path, f.name, f.mime_type, sh.expires_at⟩

/-- What the environment decides during one run of `ServeSharedFile`. -/
structure ServeEnv where
  now : Time
  /-- Whether the cache read fails. -/
  cacheGetErr : Bool
  /-- Whether the query fails. -/
  dbErr : Bool
  /-- Whether the cache write fails. -/
  cacheSetErr : Bool
  deriving DecidableEq, Repr

/-- The method `FileHandler.ServeSharedFile`.  `token` is `c.Param("token")`. -/
def ServeSharedFile (h : FileHandler) (env : ServeEnv) (token : String) (s : State) :
    Response × State :=
  let cacheKey := "file_share:" ++ token
  match s.cache.Get env.now env.cacheGetErr cacheKey with
  | some cachedPath => (⟨200, [], .file (Join [h.storageDir, cachedPath])⟩, s)
  | none =>
    match dbGetRow env.dbErr (selectShared s.db token) with
    | .error _ => (⟨404, [], errorBody "Invalid share link"⟩, s)
    | .ok file =>
      if file.ExpiresAt != zeroTime && decide (env.now > file.ExpiresAt) then
        (⟨410, [], errorBody "Share link expired"⟩, s)
      else
        (⟨200,
          [("Content-Disposition", "inline; filename=\"" ++ file.Name ++ "\""),
           ("Content-Type", file.MimeType)],
          .file (Join [h.storageDir, file.StoragePath])⟩,
          { s with cache := s.cache.Set env.now env.cacheSetErr cacheKey file.StoragePath Hour })

/-- The row type scanned by `Download`. -/
structure ownedFile where
  StoragePath : String
  Name : String
  MimeType : String
  deriving DecidableEq, Repr

/-- The query `SELECT storage_path, name, mime_type FROM files WHERE id = $1
AND user_id = $2`. -/
def selectOwned (db : DB) (fileID userID : String) : List ownedFile :=
  (db.files.filter fun f => f.id == fileID && f.user_id == userID).map fun f =>
    ⟨f.storage_path, f.name, f.mime_type⟩

/-- The method `FileHandler.Download`. -/
def Download (h : FileHandler) (dbErr : Bool) (userID fileID : String) (s : State) :
    Response × State :=
  match dbGetRow dbErr (selectOwned s.db fileID userID) with
  | .error _ => (⟨404, [], errorBody "File not found"⟩, s)
  | .ok file =>
    let fullPath := Join [h.storageDir, file.StoragePath]
    (⟨200,
      [("Content-Disposition", "attachment; filename=\"" ++ file.Name ++ "\""),
       ("Content-Type", file.MimeType)],
      .file fullPath⟩, s)

end file

/-! ## Start-up configuration and the login flow of `internal/auth/auth.go` -/

/-- The function `strconv.Atoi` on a platform whose `int` has 64 bits: an
optional sign followed by one or more decimal digits, within the range of
`int`. -/
def Atoi (s : String) : Except String Int :=
  let (neg, digits) :=
    match s.data with
    | '+' :: rest => (false, rest)
    | '-' :: rest => (true, rest)
    | all => (false, all)
  if digits = [] then .error "invalid syntax"
  else if digits.all Char.isDigit then
    let n : Int := digits.foldl (fun acc ch => 10 * acc + ((ch.toNat : Int) - 48)) 0
    let v : Int := if neg then -n else n
    if v < -(2 ^ 63) ∨ 2 ^ 63 - 1 < v then .error "value out of range"
    else .ok v
  else .error "invalid syntax"

/-- Wrap-around of a product computed in `int64`. -/
def wrapInt64 (x : Int) : Int :=
  (x + 2 ^ 63) % 2 ^ 64 - 2 ^ 63

namespace auth

/-- The function `NewAuthHandler`.  `jwtSecret` is the value of
`os.Getenv("JWT_SECRET")`, `expStr` the value of
`os.Getenv("JWT_EXPIRATION_HOURS")`; `os.Getenv` returns the empty string for
a variable that is not set. -/
def NewAuthHandler (jwtSecret expStr : String) : Except String AuthHandler :=
  if jwtSecret.utf8ByteSize < 32 then
    .error "JWT_SECRET must be at least 32 characters long"
  else
    let make (expHours : Int) : Except String AuthHandler :=
      .ok ⟨jwtSecret, wrapInt64 (expHours * Hour)⟩
    if expStr != "" then
      match Atoi expStr with
      | .error _ => .error "JWT_EXPIRATION_HOURS must be a positive integer"
      | .ok expHours =>
        if expHours ≤ 0 then .error "JWT_EXPIRATION_HOURS must be a positive integer"
        else make expHours
    else make 24

end auth

/-- The two functions of `golang.org/x/crypto/bcrypt` the repository calls;
`CompareHashAndPassword` is true when the call returns no error. -/
structure Bcrypt where
  GenerateFromPassword : String → Except String String
  CompareHashAndPassword : String → String → Bool

namespace auth

/-- The struct `RegisterRequest`, after `c.ShouldBindJSON` has validated it. -/
structure RegisterRequest where
  Email : String
  Password : String
  deriving DecidableEq, Repr

/-- The struct `LoginRequest`, after `c.ShouldBindJSON` has validated it. -/
structure LoginRequest where
  Email : String
  Password : String
  deriving DecidableEq, Repr

/-- What the environment decides during one run of `Register`. -/
structure RegisterEnv where
  /-- Whether the existence query fails. -/
  countErr : Bool
  /-- Whether the `INSERT INTO users` fails. -/
  insertErr : Bool
  /-- The id the database gives the new row. -/
  newID : String
  deriving DecidableEq, Repr

/-- The query `SELECT COUNT(*) FROM users WHERE email = $1`. -/
def countUsers (db : DB) (email : String) : Nat :=
  (db.users.filter fun u => u.email == email).length

/-- The method `AuthHandler.Register`.  `req` is the result of
`c.ShouldBindJSON(&req)`. -/
def Register (bc : Bcrypt) (env : RegisterEnv) (req : Except String RegisterRequest)
    (db : DB) : Response × DB :=
  match req with
  | .error err => (⟨400, [], errorBody err⟩, db)
  | .ok req =>
    match dbGetCount env.countErr (countUsers db req.Email) with
    | .error _ => (⟨500, [], errorBody "database error"⟩, db)
    | .ok count =>
      if count > 0 then (⟨409, [], errorBody "email already exists"⟩, db)
      else
        match bc.GenerateFromPassword req.Password with
        | .error _ => (⟨500, [], errorBody "failed to hash password"⟩, db)
        | .ok hashedPassword =>
          if env.insertErr then (⟨500, [], errorBody "failed to create user"⟩, db)
          else
            (⟨201, [], .json (.obj [("message", .str "user created successfully")])⟩,
              { db with users := db.users ++ [⟨env.newID, req.Email, hashedPassword⟩] })

/-- What the environment decides during one run of `Login`. -/
structure LoginEnv where
  /-- Whether the user query fails. -/
  getErr : Bool
  /-- Whether `rand.Read` fails. -/
  randErr : Bool
  /-- The text `hex.EncodeToString(tokenID)` of the 16 random bytes. -/
  jti : String
  /-- The instant `time.Now()` returns for the `exp` claim. -/
  nowExp : Time
  /-- The instant `time.Now()` returns for the `iat` claim. -/
  nowIat : Time
  /-- The instant `time.Now()` returns for the registry row. -/
  nowStore : Time
  /-- Whether the `INSERT INTO auth_tokens` fails. -/
  insertErr : Bool
  deriving DecidableEq, Repr

/-- The claims `GenerateToken` signs. -/
def tokenClaims (h : AuthHandler) (env : LoginEnv) (userID : String) : MapClaims :=
  [("sub", .str userID), ("jti", .str env.jti),
   ("exp", .num (Time.Unix (env.nowExp + h.tokenDuration))),
   ("iat", .num (Time.Unix env.nowIat))]

/-- The method `AuthHandler.GenerateToken`. -/
def GenerateToken (lib : JWT) (h : AuthHandler) (env : LoginEnv) (userID : String) :
    Except String String :=
  if env.randErr then .error "rand"
  else lib.SignedString .HS256 (tokenClaims h env userID) h.jwtSecret

/-- The query `SELECT id, email, password_hash FROM users WHERE email = $1`. -/
def selectUser (db : DB) (email : String) : List UserRow :=
  db.users.filter fun u => u.email == email

/-- The method `AuthHandler.Login`.  `req` is the result of
`c.ShouldBindJSON(&req)`. -/
def Login (lib : JWT) (bc : Bcrypt) (h : AuthHandler) (env : LoginEnv)
    (req : Except String LoginRequest) (db : DB) : Response × DB :=
  match req with
  | .error err => (⟨400, [], errorBody err⟩, db)
  | .ok req =>
    match dbGetRow env.getErr (selectUser db req.Email) with
    | .error _ => (⟨401, [], errorBody "invalid credentials"⟩, db)
    | .ok user =>
      if !bc.CompareHashAndPassword user.password_hash req.Password then
        (⟨401, [], errorBody "invalid credentials"⟩, db)
      else
        match GenerateToken lib h env user.id with
        | .error _ => (⟨500, [], errorBody "failed to generate token"⟩, db)
        | .ok tokenString =>
          if env.insertErr then (⟨500, [], errorBody "failed to store token"⟩, db)
          else
            (⟨200, [], .json (.obj [("token", .str tokenString),
                ("expires_in", .quot h.tokenDuration Second)])⟩,
              { db with auth_tokens :=
                  db.auth_tokens ++ [⟨user.id, tokenString, env.nowStore + h.tokenDuration⟩] })

end auth

/-! ### The gate contract, in the words of the specification -/

/-- The registry operation `IsLive(token, userID)` of the specification: a
row with that token and user id whose `expires_at` is later than `now`
exists. -/
def IsLive (db : DB) (now : Time) (token userID : String) : Prop :=
  ∃ r ∈ db.auth_tokens, r.token = token ∧ r.user_id = userID ∧ r.expires_at > now

/-- The conditions under which the gate of the specification authenticates a
request as `sub`: a non-empty token is extracted, `VerifyToken` accepts it,
its `sub` claim is the text `sub`, and the registry query answers and finds a
live row for the token and `sub`. -/
def Authenticates (lib : JWT) (h : auth.AuthHandler) (db : DB) (env : auth.GateEnv)
    (c : Context) (sub : String) : Prop :=
  auth.extractToken c.Request ≠ "" ∧
  (∃ tok claims, auth.VerifyToken lib h env.now (auth.extractToken c.Request) = .ok tok ∧
    tok.Claims = .mapClaims claims ∧ claims.lookup "sub" = some (.str sub)) ∧
  env.dbErr = false ∧
  IsLive db env.dbNow (auth.extractToken c.Request) sub

/-! ## A model of `jwt.Parse` -/

/-- The compact serialisation and the MAC, seen from outside: what a token
text decodes to, under which key its signature verifies, and how a token is
signed. -/
structure Codec where
  /-- Header algorithm and claims of a well-formed token text. -/
  decode : String → Option (SigningMethod × MapClaims)
  /-- The call `token.Method.Verify(signingString, signature, key)`. -/
  verify : String → SigningMethod → String → Bool
  /-- The call `token.SignedString(key)`. -/
  sign : SigningMethod → MapClaims → String → Except String String

/-- Reading of a numeric date claim by `MapClaims`: absent, a number of
seconds, or a value of another type (an error). -/
def numericDate (claims : MapClaims) (key : String) : Except String (Option Int) :=
  match claims.lookup key with
  | none => .ok none
  | some (.num n) => .ok (some n)
  | some _ => .error (key ++ " is invalid")

/-- The default claim validation of `golang-jwt` version 5: `exp`, when
present, must be later than `now`; `nbf`, when present, must not be later
than `now`; `iat` is not checked. -/
def validateClaims (claims : MapClaims) (now : Time) : Except String Unit :=
  match numericDate claims "exp" with
  | .error e => .error e
  | .ok exp =>
    if (match exp with | some e => decide (now < e * Second) | none => true) then
      match numericDate claims "nbf" with
      | .error e => .error e
      | .ok nbf =>
        if (match nbf with | some n => decide (n * Second ≤ now) | none => true) then .ok ()
        else .error "token is not valid yet"
    else .error "token is expired"

/-- Model of `jwt.Parse` of `golang-jwt` version 5 over a codec: decode the
text, ask the key function for the key, verify the signature, validate the
claims, and only then mark the token valid. -/
def golangParse (cd : Codec) (tokenString : String) (now : Time)
    (keyFunc : Token → Except String String) : Except String Token :=
  match cd.decode tokenString with
  | none => .error "token is malformed"
  | some (method, claims) =>
    let token : Token := ⟨method, .mapClaims claims, false⟩
    match keyFunc token with
    | .error e => .error ("token is unverifiable: " ++ e)
    | .ok key =>
      if !cd.verify tokenString method key then .error "token signature is invalid"
      else
        match validateClaims claims now with
        | .error e => .error e
        | .ok _ => .ok { token with Valid := true }

/-- The library over a codec. -/
def golangJWT (cd : Codec) : JWT :=
  ⟨golangParse cd, cd.sign⟩

/-! ### A sample installation -/

mutual
/-- A compact rendering of a JSON value, standing in for `json.Marshal` in
the sample installation (texts are written without escaping, times as their
number of nanoseconds). -/
def render : JSON → String
  | .null => "null"
  | .bool b => if b then "true" else "false"
  | .num n => toString n
  | .quot n d => toString n ++ "/" ++ toString d
  | .str s => "\"" ++ s ++ "\""
  | .rfc3339 t => "\"" ++ toString t ++ "\""
  | .rfc3339nano t => "\"" ++ toString t ++ "\""
  | .arr items => "[" ++ renderItems items ++ "]"
  | .obj fields => "\x7b" ++ renderFields fields ++ "\x7d"
/-- The items of an array, separated by commas. -/
def renderItems : List JSON → String
  | [] => ""
  | [j] => render j
  | j :: js => render j ++ "," ++ renderItems js
/-- The fields of an object, separated by commas. -/
def renderFields : List (String × JSON) → String
  | [] => ""
  | [(k, j)] => "\"" ++ k ++ "\":" ++ render j
  | (k, j) :: fs => "\"" ++ k ++ "\":" ++ render j ++ "," ++ renderFields fs
end

/-- Sample library functions: a text of 36 characters is an identifier in
canonical form, anything else is not an identifier. -/
def sampleLib : Lib :=
  ⟨fun s => if s.length = 36 then some s else none, render⟩

/-- The id of the sample user. -/
def sampleUser : String := "11111111-1111-1111-1111-111111111111"

/-- The sample file handler, with the storage directory of `routes.go`. -/
def sampleFiles : file.FileHandler := ⟨"./uploads"⟩

/-- A state in which nothing has happened yet. -/
def emptyState : State := ⟨⟨[], [], [], []⟩, [], ⟨[], []⟩⟩

/-- An upload of five bytes named `notes.txt`. -/
def sampleUpload : FileHeader := ⟨"notes.txt", 5, ["text/x-notes"], "hello"⟩

/-- An environment in which the upload meets no failure. -/
def sampleUploadEnv (now : Time) : file.UploadEnv :=
  ⟨none, none, none, none, none, "aaaaaaaa-aaaa-aaaa-aaaa-aaaaaaaaaaaa",
    "ffffffff-ffff-ffff-ffff-ffffffffffff", now, now⟩

/-- The state after the sample user has uploaded `notes.txt` at instant 0. -/
def uploadedState : State :=
  (file.Upload sampleLib sampleFiles (sampleUploadEnv 0) sampleUser (.ok sampleUpload)
    emptyState).2

/-- The share token of the sample link. -/
def sampleShare : String := "cccccccc-cccc-cccc-cccc-cccccccccccc"

/-- The state after the sample user has, at instant 0, also created a share
link for the uploaded file; the link expires seven days later. -/
def sharedState : State :=
  (file.CreateShareLink ⟨0, false, false, sampleShare⟩ sampleUser
    "ffffffff-ffff-ffff-ffff-ffffffffffff" uploadedState).2

/-- An environment of `ServeSharedFile` without failures. -/
def serveAt (now : Time) : file.ServeEnv := ⟨now, false, false, false⟩

/-- A login half a second after the epoch, without failures, drawing the
token id of the sample token. -/
def sampleLoginEnv : auth.LoginEnv :=
  ⟨false, false, "000102030405060708090a0b0c0d0e0f", 500000000, 500000000, 500000000, false⟩

/-- A registration without failures that is given the id `u1`. -/
def sampleRegisterEnv : auth.RegisterEnv := ⟨false, false, "u1"⟩

/-- A sample `bcrypt`: a hash is the password behind a marker. -/
def sampleBcrypt : Bcrypt :=
  ⟨fun p => .ok ("$2a$" ++ p), fun hash p => hash == "$2a$" ++ p⟩


/-- Claims of the sample token: subject `u1`, expiring at second 3600. -/
def sampleClaims : MapClaims :=
  [("sub", .str "u1"), ("jti", .str "000102030405060708090a0b0c0d0e0f"),
   ("exp", .num 3600), ("iat", .num 0)]

/-- A secret of 32 bytes. -/
def sampleSecret : String := "0123456789abcdef0123456789abcdef"

/-- A codec that knows one token text, `tok`, signed with `sampleSecret`. -/
def sampleCodec : Codec where
  decode s := if s = "tok" then some (.HS256, sampleClaims) else none
  verify s m key := s == "tok" && m == .HS256 && key == sampleSecret
  sign m claims key :=
    if m = .HS256 ∧ claims = sampleClaims ∧ key = sampleSecret then .ok "tok"
    else .error "key is invalid"

/-- A handler with the sample secret and a lifetime of one hour. -/
def sampleHandler : auth.AuthHandler := ⟨sampleSecret, Hour⟩

/-- A request whose only token source is the header `Bearer tok`. -/
def sampleContext : Context :=
  ⟨⟨"Bearer tok", "", "", none⟩, [], false, none⟩

/-! # Theorems -/

/-! ## Token extraction -/

theorem EqualFold_length : ∀ (s t : List Char), EqualFold s t = true → s.length = t.length
  | [], [], _ => rfl
  | _ :: s, _ :: t, h => by
    simp only [EqualFold, Bool.and_eq_true] at h
    simp [EqualFold_length s t h.2]
  | [], _ :: _, h => by simp [EqualFold] at h
  | _ :: _, [], h => by simp [EqualFold] at h

theorem string_ne_empty_iff (s : String) : s ≠ "" ↔ s.data ≠ [] := by
  constructor
  · intro h hd
    apply h
    cases s
    simp_all
  · intro h hs
    apply h
    rw [hs]

theorem bearerCandidate_ne_empty_iff (c : Request) :
    bearerCandidate c ≠ "" ↔
      (decide (c.authorization.data.length > 7) &&
        EqualFold (c.authorization.data.take 7) "Bearer ".data) = true := by
  unfold bearerCandidate
  by_cases hf : EqualFold (c.authorization.data.take 7) "Bearer ".data = true
  · have hl := EqualFold_length _ _ hf
    simp only [hf, if_true, Bool.and_true, decide_eq_true_eq]
    rw [string_ne_empty_iff]
    simp only [List.length_take] at hl
    have h7 : "Bearer ".data.length = 7 := by decide
    rw [h7] at hl
    simp only [ne_eq, List.drop_eq_nil_iff, not_le]
  · simp [hf]

theorem auth_extractToken_eq (c : Request) :
    auth.extractToken c = firstNonEmpty (candidates c) := by
  have hb := bearerCandidate_ne_empty_iff c
  unfold auth.extractToken candidates
  by_cases hc : (decide (c.authorization.data.length > 7) &&
        EqualFold (c.authorization.data.take 7) "Bearer ".data) = true
  · have hne := hb.2 hc
    simp only [hc, if_true, firstNonEmpty, if_neg hne]
    unfold bearerCandidate
    simp only [Bool.and_eq_true] at hc
    simp [hc.2]
  · have he : bearerCandidate c = "" := by
      by_contra hne
      exact hc (hb.1 hne)
    simp only [hc, firstNonEmpty, he, if_true]
    by_cases hq : c.queryToken = ""
    · by_cases hp : c.postFormToken = ""
      · simp only [hq, hp, bne_self_eq_false, Bool.false_eq_true, if_false, if_true,
          multipartCandidate]
        rcases hm : c.multipartTokens with _ | tokens
        · simp
        · cases tokens with
          | nil => simp
          | cons t ts =>
            by_cases ht : t = "" <;> simp [ht]
      · simp [hq, hp]
    · simp [hq]

theorem middleware_extractToken_eq (c : Request) :
    middleware.extractToken c = auth.extractToken c := rfl

theorem firstNonEmpty_eq_empty_iff (l : List String) :
    firstNonEmpty l = "" ↔ ∀ s ∈ l, s = "" := by
  induction l with
  | nil => simp [firstNonEmpty]
  | cons a l ih =>
    by_cases ha : a = ""
    · simp [firstNonEmpty, ha, ih]
    · simp [firstNonEmpty, ha]

theorem bearerCandidate_of_scheme (c : Request) (scheme h : String)
    (hs : EqualFold scheme.data "Bearer ".data = true)
    (hc : c.authorization = scheme ++ h) : bearerCandidate c = h := by
  have hl : scheme.data.length = 7 := EqualFold_length _ _ hs
  have hd : c.authorization.data = scheme.data ++ h.data := by rw [hc]; rfl
  unfold bearerCandidate
  rw [hd, List.take_left' hl, List.drop_left' hl, if_pos hs]

/-- C1. For every request, both copies of `extractToken` return the first
non-empty candidate in the order bearer header (scheme matched without regard
to case), `token` query parameter, `token` form field, `token` multipart
field.  A request whose header is a bearer scheme followed by a non-empty
token `h` yields `h` whatever its query-string token is, and the result is
empty exactly when every candidate is empty. -/
theorem extractToken_first_nonempty_candidate (c : Request) :
    auth.extractToken c = firstNonEmpty (candidates c) ∧
    middleware.extractToken c = firstNonEmpty (candidates c) ∧
    (∀ scheme h : String, EqualFold scheme.data "Bearer ".data = true → h ≠ "" →
      c.authorization = scheme ++ h →
        auth.extractToken c = h ∧ middleware.extractToken c = h) ∧
    (auth.extractToken c = "" ↔ ∀ s ∈ candidates c, s = "") := by
  refine ⟨auth_extractToken_eq c, ?_, ?_, ?_⟩
  · rw [middleware_extractToken_eq, auth_extractToken_eq]
  · intro scheme h hs hne hc
    have hb := bearerCandidate_of_scheme c scheme h hs hc
    have : auth.extractToken c = h := by
      rw [auth_extractToken_eq, candidates, firstNonEmpty, hb, if_neg hne]
    exact ⟨this, by rw [middleware_extractToken_eq, this]⟩
  · rw [auth_extractToken_eq, firstNonEmpty_eq_empty_iff]

/-- Witness for C1: a lower-case bearer header wins over a query token. -/
theorem extractToken_first_nonempty_candidate_witness :
    auth.extractToken ⟨"bearer abc", "q", "f", some ["m"]⟩ = "abc" ∧
    middleware.extractToken ⟨"bearer abc", "q", "f", some ["m"]⟩ = "abc" :=
  (extractToken_first_nonempty_candidate ⟨"bearer abc", "q", "f", some ["m"]⟩).2.2.1
    "bearer " "abc" (by decide) (by decide) (by decide)

/-! ## The authorization gate -/

theorem countLiveTokens_ne_zero_iff (db : DB) (now : Time) (token userID : String) :
    db.countLiveTokens now token userID ≠ 0 ↔ IsLive db now token userID := by
  unfold DB.countLiveTokens IsLive
  rw [Nat.ne_zero_iff_zero_lt, List.length_pos, ne_eq, List.filter_eq_nil_iff]
  simp

theorem gate_registry_check (db : DB) (env : auth.GateEnv) (token userID : String) :
    (∃ n, dbGetCount env.dbErr (db.countLiveTokens env.dbNow token userID) = .ok n ∧ n ≠ 0) ↔
      (env.dbErr = false ∧ IsLive db env.dbNow token userID) := by
  rw [← countLiveTokens_ne_zero_iff]
  unfold dbGetCount
  cases env.dbErr <;> simp

/-- Every run of the gate either finds the request authenticated as some
`sub` and continues with the chain on the context extended by the binding, or
finds it not authenticated and aborts with status 401, whatever the chain. -/
theorem AuthMiddleware_cases (lib : JWT) (h : auth.AuthHandler) (db : DB)
    (env : auth.GateEnv) (c : Context) :
    (∃ sub, Authenticates lib h db env c sub ∧
      ∀ next, auth.AuthMiddleware lib h db env next c = next (c.Set "userID" sub)) ∨
    ((∀ sub, ¬ Authenticates lib h db env c sub) ∧
      ∃ msg, ∀ next, auth.AuthMiddleware lib h db env next c =
        c.AbortWithStatusJSON StatusUnauthorized msg) := by
  unfold Authenticates auth.AuthMiddleware
  by_cases ht : auth.extractToken c.Request = ""
  · right
    refine ⟨fun sub hs => hs.1 ht, "authorization token required", fun next => ?_⟩
    simp [ht]
  · have hb : (auth.extractToken c.Request == "") = false := by simpa using ht
    simp only [hb, Bool.false_eq_true, if_false]
    rcases hv : auth.VerifyToken lib h env.now (auth.extractToken c.Request) with e | token
    · right
      exact ⟨fun sub hs => by simp at hs, "invalid token", fun _ => rfl⟩
    · dsimp only
      rcases hc : token.Claims with claims | _
      · dsimp only
        rcases hl : List.lookup "sub" claims with _ | v
        · right
          refine ⟨fun sub hs => ?_, "invalid user ID in token", fun _ => rfl⟩
          obtain ⟨_, ⟨tok, cl, h1, h2, h3⟩, _⟩ := hs
          cases h1; rw [hc] at h2; cases h2; rw [hl] at h3; cases h3
        · cases v with
          | str userID =>
            have hreg := gate_registry_check db env (auth.extractToken c.Request) userID
            dsimp only
            rcases hq : dbGetCount env.dbErr
                (db.countLiveTokens env.dbNow (auth.extractToken c.Request) userID) with e | n
            · right
              refine ⟨fun sub hs => ?_, "invalid or expired token", fun _ => rfl⟩
              obtain ⟨_, ⟨tok, cl, h1, h2, h3⟩, h4, h5⟩ := hs
              cases h1; rw [hc] at h2; cases h2; rw [hl] at h3; cases h3
              obtain ⟨n, hn, _⟩ := hreg.2 ⟨h4, h5⟩
              rw [hq] at hn; cases hn
            · by_cases hn : n = 0
              · right
                refine ⟨fun sub hs => ?_, "invalid or expired token", fun _ => ?_⟩
                · obtain ⟨_, ⟨tok, cl, h1, h2, h3⟩, h4, h5⟩ := hs
                  cases h1; rw [hc] at h2; cases h2; rw [hl] at h3; cases h3
                  obtain ⟨m, hm, hm0⟩ := hreg.2 ⟨h4, h5⟩
                  rw [hq] at hm; cases hm; exact hm0 hn
                · simp [hn]
              · left
                have h45 := hreg.1 ⟨n, hq, hn⟩
                refine ⟨userID, ⟨ht, ⟨token, claims, rfl, hc, hl⟩, h45.1, h45.2⟩, fun _ => ?_⟩
                simp [hn]
          | num _ | bool _ | null | composite =>
            right
            refine ⟨fun sub hs => ?_, "invalid user ID in token", fun _ => rfl⟩
            obtain ⟨_, ⟨tok, cl, h1, h2, h3⟩, _⟩ := hs
            cases h1; rw [hc] at h2; cases h2; rw [hl] at h3; cases h3
      · right
        refine ⟨fun sub hs => ?_, "invalid token claims", fun _ => rfl⟩
        obtain ⟨_, ⟨tok, cl, h1, h2, h3⟩, _⟩ := hs
        cases h1; rw [hc] at h2; cases h2

theorem Authenticates_unique (lib : JWT) (h : auth.AuthHandler) (db : DB)
    (env : auth.GateEnv) (c : Context) (s t : String)
    (hs : Authenticates lib h db env c s) (ht : Authenticates lib h db env c t) : s = t := by
  obtain ⟨_, ⟨tok, cl, h1, h2, h3⟩, _⟩ := hs
  obtain ⟨_, ⟨tok2, cl2, k1, k2, k3⟩, _⟩ := ht
  rw [h1] at k1; cases k1
  rw [h2] at k2; cases k2
  rw [h3] at k3; cases k3
  rfl

/-- C2. Let `VerifyToken` accept the token `T` of a request with subject `U`.
When the registry holds no row with token `T`, user id `U` and `expires_at`
later than now, the gate aborts the request with status 401.  The liveness
check is exact: for every registry, instant, token and user id the count the
gate reads is non-zero if and only if a row with that token, that user id and
`expires_at` later than the instant exists; and the gate binds `U` and runs
the rest of the chain if and only if `T` is not empty, the registry query
answers, and such a row exists. -/
theorem gate_rejects_token_without_live_row (lib : JWT) (h : auth.AuthHandler) (db : DB)
    (env : auth.GateEnv) (c : Context) (T U : String) (tok : Token) (claims : MapClaims)
    (hT : auth.extractToken c.Request = T)
    (hv : auth.VerifyToken lib h env.now T = .ok tok)
    (hc : tok.Claims = .mapClaims claims)
    (hsub : claims.lookup "sub" = some (.str U)) :
    ((¬ ∃ r ∈ db.auth_tokens, r.token = T ∧ r.user_id = U ∧ r.expires_at > env.dbNow) →
      ∃ msg, ∀ next, auth.AuthMiddleware lib h db env next c =
        c.AbortWithStatusJSON 401 msg) ∧
    (∀ (d : DB) (now : Time) (t u : String),
      d.countLiveTokens now t u ≠ 0 ↔
        ∃ r ∈ d.auth_tokens, r.token = t ∧ r.user_id = u ∧ r.expires_at > now) ∧
    ((∀ next, auth.AuthMiddleware lib h db env next c = next (c.Set "userID" U)) ↔
      (T ≠ "" ∧ env.dbErr = false ∧
        ∃ r ∈ db.auth_tokens, r.token = T ∧ r.user_id = U ∧ r.expires_at > env.dbNow)) := by
  have hsubject : ∀ sub, Authenticates lib h db env c sub → sub = U := by
    intro sub hs
    obtain ⟨_, ⟨tok2, cl2, k1, k2, k3⟩, _⟩ := hs
    rw [hT, hv] at k1; cases k1
    rw [hc] at k2; cases k2
    rw [hsub] at k3; cases k3
    rfl
  refine ⟨fun hno => ?_, fun d now t u => countLiveTokens_ne_zero_iff d now t u, ?_, ?_⟩
  · rcases AuthMiddleware_cases lib h db env c with ⟨sub, hs, _⟩ | ⟨_, hmsg⟩
    · exfalso
      have hU := hsubject sub hs
      obtain ⟨_, _, _, k5⟩ := hs
      rw [hT, hU] at k5
      exact hno k5
    · exact hmsg
  · intro hrun
    rcases AuthMiddleware_cases lib h db env c with ⟨sub, hs, _⟩ | ⟨_, msg, hmsg⟩
    · have hU := hsubject sub hs
      obtain ⟨k0, _, k4, k5⟩ := hs
      rw [hT] at k0
      rw [hT, hU] at k5
      exact ⟨k0, k4, k5⟩
    · exfalso
      have h1 := hrun id
      rw [hmsg id] at h1
      have h2 := congrArg (fun x => x.Keys.length) h1
      simp [Context.Set, Context.AbortWithStatusJSON] at h2
  · rintro ⟨hne, herr, hlive⟩ next
    have hauth : Authenticates lib h db env c U :=
      ⟨by rw [hT]; exact hne, ⟨tok, claims, by rw [hT]; exact hv, hc, hsub⟩, herr,
        by rw [hT]; exact hlive⟩
    rcases AuthMiddleware_cases lib h db env c with ⟨sub, hs, hnext⟩ | ⟨hnone, _⟩
    · rw [← hsubject sub hs]
      exact hnext next
    · exact absurd hauth (hnone U)

/-- Witness for C2: the sample token is aborted when its only registry row
expired one second before the request, and is bound to its subject, with a
non-zero count, when the row expires five seconds after the request. -/
theorem gate_rejects_token_without_live_row_witness :
    (∃ msg, ∀ next, auth.AuthMiddleware (golangJWT sampleCodec) sampleHandler
        ⟨[], [⟨"u1", "tok", 5 * Second - 1 * Second⟩], [], []⟩
        ⟨5 * Second, 5 * Second, false⟩ next sampleContext =
      sampleContext.AbortWithStatusJSON 401 msg) ∧
    DB.countLiveTokens ⟨[], [⟨"u1", "tok", 10 * Second⟩], [], []⟩
      (5 * Second) "tok" "u1" ≠ 0 ∧
    (∀ next, auth.AuthMiddleware (golangJWT sampleCodec) sampleHandler
        ⟨[], [⟨"u1", "tok", 10 * Second⟩], [], []⟩
        ⟨5 * Second, 5 * Second, false⟩ next sampleContext =
      next (sampleContext.Set "userID" "u1")) :=
  ⟨(gate_rejects_token_without_live_row (golangJWT sampleCodec) sampleHandler
      ⟨[], [⟨"u1", "tok", 5 * Second - 1 * Second⟩], [], []⟩
      ⟨5 * Second, 5 * Second, false⟩ sampleContext "tok" "u1"
      ⟨.HS256, .mapClaims sampleClaims, true⟩ sampleClaims
      (by decide) rfl rfl (by decide)).1 (by decide),
   ((gate_rejects_token_without_live_row (golangJWT sampleCodec) sampleHandler
      ⟨[], [⟨"u1", "tok", 10 * Second⟩], [], []⟩
      ⟨5 * Second, 5 * Second, false⟩ sampleContext "tok" "u1"
      ⟨.HS256, .mapClaims sampleClaims, true⟩ sampleClaims
      (by decide) rfl rfl (by decide)).2.1
      ⟨[], [⟨"u1", "tok", 10 * Second⟩], [], []⟩ (5 * Second) "tok" "u1").2
      ⟨⟨"u1", "tok", 10 * Second⟩, by simp, rfl, rfl, by decide⟩,
   (gate_rejects_token_without_live_row (golangJWT sampleCodec) sampleHandler
      ⟨[], [⟨"u1", "tok", 10 * Second⟩], [], []⟩
      ⟨5 * Second, 5 * Second, false⟩ sampleContext "tok" "u1"
      ⟨.HS256, .mapClaims sampleClaims, true⟩ sampleClaims
      (by decide) rfl rfl (by decide)).2.2.2
      ⟨by decide, rfl, ⟨"u1", "tok", 10 * Second⟩, by simp, rfl, rfl, by decide⟩⟩

/-- C3. The gate binds the identity `sub` under the key `userID` and runs the
rest of the chain if and only if a non-empty token is extracted, `VerifyToken`
accepts it, its `sub` claim is the text `sub` and the registry query answers
with a live row for the token and `sub`.  When that holds for no `sub`, the
request is aborted with status 401 whatever the chain is, and the keys of the
context are left as they were. -/
theorem AuthMiddleware_binds_iff (lib : JWT) (h : auth.AuthHandler) (db : DB)
    (env : auth.GateEnv) (c : Context) :
    (∀ sub, (∀ next, auth.AuthMiddleware lib h db env next c = next (c.Set "userID" sub)) ↔
      Authenticates lib h db env c sub) ∧
    ((¬ ∃ sub, Authenticates lib h db env c sub) →
      ∀ next, (auth.AuthMiddleware lib h db env next c).aborted = true ∧
        (auth.AuthMiddleware lib h db env next c).Keys = c.Keys ∧
        (auth.AuthMiddleware lib h db env next c).Get "userID" = c.Get "userID" ∧
        ∃ msg, auth.AuthMiddleware lib h db env next c =
          c.AbortWithStatusJSON 401 msg ∧
          (auth.AuthMiddleware lib h db env next c).response =
            some ⟨401, [], errorBody msg⟩) := by
  constructor
  · intro sub
    constructor
    · intro hrun
      rcases AuthMiddleware_cases lib h db env c with ⟨s, hs, hnext⟩ | ⟨_, msg, hmsg⟩
      · have h1 := hrun id
        rw [hnext id] at h1
        have h2 : (c.Set "userID" s).Keys = (c.Set "userID" sub).Keys := congrArg _ h1
        simp only [Context.Set, List.cons.injEq, Prod.mk.injEq, true_and, and_true] at h2
        rw [← h2]; exact hs
      · exfalso
        have h1 := hrun id
        rw [hmsg id] at h1
        have h2 := congrArg (fun x => x.Keys.length) h1
        simp [Context.Set, Context.AbortWithStatusJSON] at h2
    · intro hs
      rcases AuthMiddleware_cases lib h db env c with ⟨s, hs2, hnext⟩ | ⟨hno, _⟩
      · rw [Authenticates_unique lib h db env c sub s hs hs2]; exact hnext
      · exact absurd hs (hno sub)
  · intro hno next
    rcases AuthMiddleware_cases lib h db env c with ⟨s, hs, _⟩ | ⟨_, msg, hmsg⟩
    · exact absurd ⟨s, hs⟩ hno
    · rw [hmsg next]
      exact ⟨rfl, rfl, rfl, msg, rfl, rfl⟩

/-- Witness for C3: the sample token with a live registry row is bound to its
subject, and the same token at a time when the registry row is no longer live
is aborted. -/
theorem AuthMiddleware_binds_iff_witness :
    (∀ next, auth.AuthMiddleware (golangJWT sampleCodec) sampleHandler
        ⟨[], [⟨"u1", "tok", 10 * Second⟩], [], []⟩ ⟨5 * Second, 5 * Second, false⟩
        next sampleContext = next (sampleContext.Set "userID" "u1")) ∧
    (∀ next, (auth.AuthMiddleware (golangJWT sampleCodec) sampleHandler
        ⟨[], [⟨"u1", "tok", 10 * Second⟩], [], []⟩ ⟨5 * Second, 10 * Second, false⟩
        next sampleContext).aborted = true) :=
  ⟨((AuthMiddleware_binds_iff (golangJWT sampleCodec) sampleHandler
      ⟨[], [⟨"u1", "tok", 10 * Second⟩], [], []⟩ ⟨5 * Second, 5 * Second, false⟩
      sampleContext).1 "u1").2
      ⟨by decide, ⟨⟨.HS256, .mapClaims sampleClaims, true⟩, sampleClaims,
        rfl, rfl, by decide⟩, rfl, ⟨"u1", "tok", 10 * Second⟩, by simp, rfl, rfl,
        by decide⟩,
   fun next => ((AuthMiddleware_binds_iff (golangJWT sampleCodec) sampleHandler
      ⟨[], [⟨"u1", "tok", 10 * Second⟩], [], []⟩ ⟨5 * Second, 10 * Second, false⟩
      sampleContext).2 (by
        rintro ⟨sub, _, _, _, r, hr, _, _, hlt⟩
        simp only [List.mem_singleton] at hr
        subst hr
        exact absurd hlt (by decide)) next).1⟩

theorem AuthMiddleware_of_Authenticates (lib : JWT) (h : auth.AuthHandler) (db : DB)
    (env : auth.GateEnv) (c : Context) (sub : String)
    (hs : Authenticates lib h db env c sub) (next : Context → Context) :
    auth.AuthMiddleware lib h db env next c = next (c.Set "userID" sub) := by
  rcases AuthMiddleware_cases lib h db env c with ⟨s, hs2, hnext⟩ | ⟨hno, _⟩
  · rw [Authenticates_unique lib h db env c sub s hs hs2]; exact hnext next
  · exact absurd hs (hno sub)

/-! ## Registration and login -/

/-- A registration answered 201 found no user with the e-mail address, hashed
the password and appended one row with the id the database chose. -/
theorem Register_success (bc : Bcrypt) (env : auth.RegisterEnv) (email password : String)
    (db : DB) (hreg : (auth.Register bc env (.ok ⟨email, password⟩) db).1.status = 201) :
    ∃ hash, bc.GenerateFromPassword password = .ok hash ∧
      auth.selectUser db email = [] ∧
      (auth.Register bc env (.ok ⟨email, password⟩) db).2 =
        { db with users := db.users ++ [⟨env.newID, email, hash⟩] } := by
  revert hreg
  unfold auth.Register dbGetCount
  dsimp only
  cases env.countErr
  · simp only [Bool.false_eq_true, if_false]
    by_cases hc : auth.countUsers db email > 0
    · intro hreg; simp [hc] at hreg
    · simp only [hc, if_false]
      rcases bc.GenerateFromPassword password with e | hash
      · intro hreg; simp at hreg
      · cases env.insertErr
        · intro _
          refine ⟨hash, rfl, ?_, rfl⟩
          have h0 : auth.countUsers db email = 0 := by omega
          unfold auth.countUsers at h0
          exact List.length_eq_zero.1 h0
        · intro hreg; simp at hreg
  · intro hreg; simp at hreg

theorem lookup_tokenClaims (h : auth.AuthHandler) (env : auth.LoginEnv) (userID : String) :
    (auth.tokenClaims h env userID).lookup "sub" = some (.str userID) ∧
    numericDate (auth.tokenClaims h env userID) "exp" =
      .ok (some (Time.Unix (env.nowExp + h.tokenDuration))) ∧
    numericDate (auth.tokenClaims h env userID) "nbf" = .ok none := by
  refine ⟨?_, ?_, ?_⟩
  · unfold auth.tokenClaims
    rw [List.lookup_cons]
    rfl
  · unfold numericDate auth.tokenClaims
    have : List.lookup "exp"
        [("sub", ClaimValue.str userID), ("jti", ClaimValue.str env.jti),
          ("exp", ClaimValue.num (Time.Unix (env.nowExp + h.tokenDuration))),
          ("iat", ClaimValue.num (Time.Unix env.nowIat))] =
        some (.num (Time.Unix (env.nowExp + h.tokenDuration))) := by
      rw [List.lookup_cons, List.lookup_cons, List.lookup_cons]
      rfl
    rw [this]
  · unfold numericDate auth.tokenClaims
    have : List.lookup "nbf"
        [("sub", ClaimValue.str userID), ("jti", ClaimValue.str env.jti),
          ("exp", ClaimValue.num (Time.Unix (env.nowExp + h.tokenDuration))),
          ("iat", ClaimValue.num (Time.Unix env.nowIat))] = none := by
      rw [List.lookup_cons, List.lookup_cons, List.lookup_cons, List.lookup_cons]
      rfl
    rw [this]

theorem Unix_mul_Second_le (t : Time) : Time.Unix t * Second ≤ t := by
  unfold Time.Unix Second
  exact Int.ediv_mul_le t (by decide)

/-- A login that meets no failure, directly after a registration answered
201 with the same credentials, answers 200 with the signed token and appends
the registry row of that token for the id of the registered user. -/
theorem Login_after_Register (lib : JWT) (bc : Bcrypt) (h : auth.AuthHandler) (db : DB)
    (renv : auth.RegisterEnv) (lenv : auth.LoginEnv) (email password tok : String)
    (hbcrypt : ∀ p hash, bc.GenerateFromPassword p = .ok hash →
      bc.CompareHashAndPassword hash p = true)
    (hreg : (auth.Register bc renv (.ok ⟨email, password⟩) db).1.status = 201)
    (hget : lenv.getErr = false) (hrand : lenv.randErr = false)
    (hins : lenv.insertErr = false)
    (hsign : lib.SignedString .HS256 (auth.tokenClaims h lenv renv.newID) h.jwtSecret = .ok tok) :
    auth.Login lib bc h lenv (.ok ⟨email, password⟩)
        (auth.Register bc renv (.ok ⟨email, password⟩) db).2 =
      (⟨200, [], .json (.obj [("token", .str tok),
          ("expires_in", .quot h.tokenDuration Second)])⟩,
        { (auth.Register bc renv (.ok ⟨email, password⟩) db).2 with
          auth_tokens := (auth.Register bc renv (.ok ⟨email, password⟩) db).2.auth_tokens ++
            [⟨renv.newID, tok, lenv.nowStore + h.tokenDuration⟩] }) := by
  obtain ⟨hash, hgen, hsel, hdb1⟩ := Register_success bc renv email password db hreg
  rw [hdb1]
  have hrow : auth.selectUser { db with users := db.users ++ [⟨renv.newID, email, hash⟩] } email =
      [⟨renv.newID, email, hash⟩] := by
    unfold auth.selectUser at hsel ⊢
    simp only [List.filter_append, hsel, List.nil_append]
    simp [List.filter]
  unfold auth.Login
  simp only [hrow, dbGetRow, hget, Bool.false_eq_true, if_false, hbcrypt password hash hgen,
    Bool.not_true, auth.GenerateToken, hrand, hsign, hins]

/-- C8, as amended.  After a registration answered 201, a login with the same
credentials that meets no failure answers 200 with the signed token and has
recorded the registry row (token, id of the registered user, instant of the
login plus the token lifetime).  The gate then binds the id of the registered
user for every request carrying the token at every instant that is earlier
than the `exp` claim of the token (instant of generation plus lifetime, cut to
whole seconds) and earlier than the recorded expiry; with a clock that does
not run backwards the `exp` claim is never later than the recorded expiry. -/
theorem Register_Login_token_accepted (cd : Codec) (bc : Bcrypt) (h : auth.AuthHandler)
    (db : DB) (renv : auth.RegisterEnv) (lenv : auth.LoginEnv) (email password tok : String)
    (hcodec : ∀ m claims key s, cd.sign m claims key = .ok s →
      s ≠ "" ∧ cd.decode s = some (m, claims) ∧ cd.verify s m key = true)
    (hbcrypt : ∀ p hash, bc.GenerateFromPassword p = .ok hash →
      bc.CompareHashAndPassword hash p = true)
    (hreg : (auth.Register bc renv (.ok ⟨email, password⟩) db).1.status = 201)
    (hget : lenv.getErr = false) (hrand : lenv.randErr = false)
    (hins : lenv.insertErr = false)
    (hsign : cd.sign .HS256 (auth.tokenClaims h lenv renv.newID) h.jwtSecret = .ok tok) :
    (auth.Login (golangJWT cd) bc h lenv (.ok ⟨email, password⟩)
        (auth.Register bc renv (.ok ⟨email, password⟩) db).2).1 =
      ⟨200, [], .json (.obj [("token", .str tok),
          ("expires_in", .quot h.tokenDuration Second)])⟩ ∧
    (⟨renv.newID, tok, lenv.nowStore + h.tokenDuration⟩ : AuthTokenRow) ∈
      (auth.Login (golangJWT cd) bc h lenv (.ok ⟨email, password⟩)
        (auth.Register bc renv (.ok ⟨email, password⟩) db).2).2.auth_tokens ∧
    (∀ (genv : auth.GateEnv) (c : Context), auth.extractToken c.Request = tok →
      genv.dbErr = false →
      genv.now < Time.Unix (lenv.nowExp + h.tokenDuration) * Second →
      genv.dbNow < lenv.nowStore + h.tokenDuration →
      ∀ next, auth.AuthMiddleware (golangJWT cd) h
          (auth.Login (golangJWT cd) bc h lenv (.ok ⟨email, password⟩)
            (auth.Register bc renv (.ok ⟨email, password⟩) db).2).2 genv next c =
        next (c.Set "userID" renv.newID)) ∧
    (lenv.nowExp ≤ lenv.nowStore →
      Time.Unix (lenv.nowExp + h.tokenDuration) * Second ≤ lenv.nowStore + h.tokenDuration) := by
  have hlogin := Login_after_Register (golangJWT cd) bc h db renv lenv email password tok
    hbcrypt hreg hget hrand hins hsign
  obtain ⟨hne, hdec, hver⟩ := hcodec _ _ _ _ hsign
  obtain ⟨hsub, hexp, hnbf⟩ := lookup_tokenClaims h lenv renv.newID
  refine ⟨by rw [hlogin], by rw [hlogin]; simp, fun genv c hc hdb hnow hlive next => ?_, fun hle => ?_⟩
  · apply AuthMiddleware_of_Authenticates
    refine ⟨by rw [hc]; exact hne,
      ⟨⟨.HS256, .mapClaims (auth.tokenClaims h lenv renv.newID), true⟩, _, ?_, rfl, hsub⟩,
      hdb, ⟨renv.newID, tok, lenv.nowStore + h.tokenDuration⟩, ?_, hc.symm, rfl, hlive⟩
    · rw [hc]
      unfold auth.VerifyToken golangJWT golangParse
      simp only [hdec, auth.keyFunc, SigningMethod.isHMAC, Bool.not_true, Bool.false_eq_true,
        if_false, hver, validateClaims, hexp, hnbf, decide_eq_true hnow, if_true]
    · rw [hlogin]; simp
  · have hfloor : Time.Unix (lenv.nowExp + h.tokenDuration) * Second ≤
        lenv.nowExp + h.tokenDuration := Unix_mul_Second_le _
    have hle2 : (lenv.nowExp : Int) ≤ lenv.nowStore := hle
    linarith

/-- Witness for C8 as amended: the sample user registers, logs in half a
second after the epoch and presents the token one second later. -/
theorem Register_Login_token_accepted_witness :
    auth.AuthMiddleware (golangJWT sampleCodec) sampleHandler
        (auth.Login (golangJWT sampleCodec) sampleBcrypt sampleHandler sampleLoginEnv
          (.ok ⟨"a@b.c", "password1"⟩)
          (auth.Register sampleBcrypt sampleRegisterEnv (.ok ⟨"a@b.c", "password1"⟩)
            emptyState.db).2).2
        ⟨Second, Second, false⟩ id sampleContext =
      sampleContext.Set "userID" "u1" :=
  (Register_Login_token_accepted sampleCodec sampleBcrypt sampleHandler emptyState.db
    sampleRegisterEnv sampleLoginEnv "a@b.c" "password1" "tok"
    (by
      intro m claims key s hs
      unfold sampleCodec at hs ⊢
      dsimp only at hs ⊢
      split at hs
      · next hcond =>
        cases hs
        obtain ⟨hm, hcl, hk⟩ := hcond
        subst hm hcl hk
        exact ⟨by decide, by decide, by decide⟩
      · cases hs)
    (by
      intro p hash hp
      unfold sampleBcrypt at hp ⊢
      dsimp only at hp ⊢
      cases hp
      simp)
    (by decide) rfl rfl rfl rfl).2.2.1 ⟨Second, Second, false⟩ sampleContext
    (by decide) rfl (by decide) (by decide) id

/-- Counterexample to C8 as stated.  The sample user registers and logs in
half a second after the epoch with a lifetime of one hour: the recorded
expiry is 3600.5 s, the `exp` claim is 3600 s.  At 3600.2 s, before the
recorded expiry and with the registry row live, the gate aborts the request
carrying the token with 401. -/
theorem Register_Login_token_rejected_before_recorded_expiry :
    (auth.Register sampleBcrypt sampleRegisterEnv (.ok ⟨"a@b.c", "password1"⟩)
      emptyState.db).1.status = 201 ∧
    (auth.Login (golangJWT sampleCodec) sampleBcrypt sampleHandler sampleLoginEnv
      (.ok ⟨"a@b.c", "password1"⟩)
      (auth.Register sampleBcrypt sampleRegisterEnv (.ok ⟨"a@b.c", "password1"⟩)
        emptyState.db).2).1.status = 200 ∧
    (auth.Login (golangJWT sampleCodec) sampleBcrypt sampleHandler sampleLoginEnv
      (.ok ⟨"a@b.c", "password1"⟩)
      (auth.Register sampleBcrypt sampleRegisterEnv (.ok ⟨"a@b.c", "password1"⟩)
        emptyState.db).2).2.auth_tokens = [⟨"u1", "tok", 3600500000000⟩] ∧
    (3600200000000 : Time) < 3600500000000 ∧
    auth.extractToken sampleContext.Request = "tok" ∧
    ∀ next, auth.AuthMiddleware (golangJWT sampleCodec) sampleHandler
        (auth.Login (golangJWT sampleCodec) sampleBcrypt sampleHandler sampleLoginEnv
          (.ok ⟨"a@b.c", "password1"⟩)
          (auth.Register sampleBcrypt sampleRegisterEnv (.ok ⟨"a@b.c", "password1"⟩)
            emptyState.db).2).2
        ⟨3600200000000, 3600200000000, false⟩ next sampleContext =
      sampleContext.AbortWithStatusJSON 401 "invalid token" :=
  ⟨by decide, by decide, by decide, by decide, by decide, fun _ => rfl⟩

/-! ## Share links -/

theorem countOwnedFiles_ne_zero_iff (db : DB) (fileID userID : String) :
    file.countOwnedFiles db fileID userID ≠ 0 ↔
      ∃ f ∈ db.files, f.id = fileID ∧ f.user_id = userID := by
  unfold file.countOwnedFiles
  rw [Nat.ne_zero_iff_zero_lt, List.length_pos, ne_eq, List.filter_eq_nil_iff]
  simp

theorem CreateShareLink_not_found (env : file.ShareEnv) (R F : String) (s : State)
    (hno : ¬ ∃ f ∈ s.db.files, f.id = F ∧ f.user_id = R) :
    file.CreateShareLink env R F s = (⟨404, [], errorBody "File not found"⟩, s) := by
  have h0 : file.countOwnedFiles s.db F R = 0 := by
    by_contra hne
    exact hno ((countOwnedFiles_ne_zero_iff s.db F R).1 hne)
  unfold file.CreateShareLink dbGetCount
  rw [h0]
  cases env.countErr <;> rfl

theorem CreateShareLink_status (env : file.ShareEnv) (R F : String) (s : State) :
    (file.CreateShareLink env R F s).1.status = 404 ∨
    (file.CreateShareLink env R F s).1.status = 500 ∨
    (file.CreateShareLink env R F s).1.status = 200 := by
  unfold file.CreateShareLink dbGetCount
  cases env.countErr
  · by_cases hc : file.countOwnedFiles s.db F R = 0
    · simp [hc]
    · cases hi : env.insertErr <;> simp [hc, hi]
  · simp

/-- C7. When the requester `R` owns no `files` row with id `F`, whether
another user owns `F` or `F` does not exist, `CreateShareLink` answers 404
with the body `File not found` and leaves the state as it was, so the answer
for a file of another owner equals the answer for a missing file; the status
is never 403; and the `file_shares` table changes only when a `files` row
with id `F` and user id `R` exists. -/
theorem CreateShareLink_ownership_opaque (env env' : file.ShareEnv) (R F F' : String)
    (s s' : State)
    (hnot : ¬ ∃ f ∈ s.db.files, f.id = F ∧ f.user_id = R)
    (hmissing : ∀ f ∈ s'.db.files, f.id ≠ F') :
    file.CreateShareLink env R F s = (⟨404, [], errorBody "File not found"⟩, s) ∧
    (file.CreateShareLink env R F s).1 = (file.CreateShareLink env' R F' s').1 ∧
    (∀ (e : file.ShareEnv) (r f : String) (t : State),
      (file.CreateShareLink e r f t).1.status ≠ 403 ∧
      ((file.CreateShareLink e r f t).2.db.file_shares ≠ t.db.file_shares →
        ∃ row ∈ t.db.files, row.id = f ∧ row.user_id = r)) := by
  have h1 := CreateShareLink_not_found env R F s hnot
  have h2 := CreateShareLink_not_found env' R F' s'
    (fun ⟨f, hf, hid, _⟩ => hmissing f hf hid)
  refine ⟨h1, by rw [h1, h2], fun e r f t => ⟨?_, fun hch => ?_⟩⟩
  · rcases CreateShareLink_status e r f t with h | h | h <;> rw [h] <;> decide
  · by_contra hno
    rw [CreateShareLink_not_found e r f t hno] at hch
    exact hch rfl

/-- Witness for C7: `u1` asks for a link to a file of `u2`, and for a link to
a file that does not exist. -/
theorem CreateShareLink_ownership_opaque_witness :
    file.CreateShareLink ⟨0, false, false, "t1"⟩ "u1" "f1"
        ⟨⟨[], [], [⟨"f1", "u2", "n", "o", "u2/n", 1, "text/plain", false, "/files/f1", 0⟩], []⟩,
          [], ⟨[], []⟩⟩ =
      (⟨404, [], errorBody "File not found"⟩,
        ⟨⟨[], [], [⟨"f1", "u2", "n", "o", "u2/n", 1, "text/plain", false, "/files/f1", 0⟩], []⟩,
          [], ⟨[], []⟩⟩) ∧
    (file.CreateShareLink ⟨0, false, false, "t1"⟩ "u1" "f1"
        ⟨⟨[], [], [⟨"f1", "u2", "n", "o", "u2/n", 1, "text/plain", false, "/files/f1", 0⟩], []⟩,
          [], ⟨[], []⟩⟩).1 =
      (file.CreateShareLink ⟨7, false, false, "t2"⟩ "u1" "f9" emptyState).1 :=
  let h := CreateShareLink_ownership_opaque ⟨0, false, false, "t1"⟩ ⟨7, false, false, "t2"⟩
    "u1" "f1" "f9"
    ⟨⟨[], [], [⟨"f1", "u2", "n", "o", "u2/n", 1, "text/plain", false, "/files/f1", 0⟩], []⟩,
      [], ⟨[], []⟩⟩
    emptyState (by decide) (by decide)
  ⟨h.1, h.2.1⟩

/-- C5, evaluation at the failing input.  The sample link expires after seven
days.  Resolved ten minutes before that, the file is served and its path is
cached for one hour; resolved again ten minutes after the expiry, in the
state the first resolution left, the file is served once more from the cache,
while the same request against the database alone is answered 410. -/
theorem ServeSharedFile_expired_link_served_from_cache :
    sharedState.db.file_shares =
      [⟨"ffffffff-ffff-ffff-ffff-ffffffffffff", sampleShare, file.shareLifetime⟩] ∧
    (file.ServeSharedFile sampleFiles (serveAt (file.shareLifetime - 600 * Second))
      sampleShare sharedState).1.status = 200 ∧
    file.shareLifetime < file.shareLifetime + 600 * Second ∧
    (file.ServeSharedFile sampleFiles (serveAt (file.shareLifetime + 600 * Second)) sampleShare
      (file.ServeSharedFile sampleFiles (serveAt (file.shareLifetime - 600 * Second))
        sampleShare sharedState).2).1 =
      ⟨200, [], .file ("uploads/" ++ sampleUser ++ "/aaaaaaaa-aaaa-aaaa-aaaa-aaaaaaaaaaaa.txt")⟩ ∧
    (file.ServeSharedFile sampleFiles (serveAt (file.shareLifetime + 600 * Second)) sampleShare
      sharedState).1 = ⟨410, [], errorBody "Share link expired"⟩ := by
  refine ⟨by decide, by decide, by decide, rfl, rfl⟩

/-- C6, evaluation at the failing input.  Two resolutions of the sample link
one minute apart, well within its lifetime: the first, answered from the
database, sets `Content-Disposition: inline` and the stored MIME type; the
second, answered from the cache, serves the same path and sets no header. -/
theorem ServeSharedFile_cached_answer_without_headers :
    (file.ServeSharedFile sampleFiles (serveAt (60 * Second)) sampleShare sharedState).1 =
      ⟨200,
        [("Content-Disposition",
            "inline; filename=\"aaaaaaaa-aaaa-aaaa-aaaa-aaaaaaaaaaaa.txt\""),
         ("Content-Type", "text/x-notes")],
        .file ("uploads/" ++ sampleUser ++ "/aaaaaaaa-aaaa-aaaa-aaaa-aaaaaaaaaaaa.txt")⟩ ∧
    (file.ServeSharedFile sampleFiles (serveAt (120 * Second)) sampleShare
      (file.ServeSharedFile sampleFiles (serveAt (60 * Second)) sampleShare sharedState).2).1 =
      ⟨200, [], .file ("uploads/" ++ sampleUser ++ "/aaaaaaaa-aaaa-aaaa-aaaa-aaaaaaaaaaaa.txt")⟩ :=
  ⟨rfl, rfl⟩

/-! ## Upload -/

/-- C9. An upload whose `file` part has size 0 is answered with status 400 and
leaves database, cache and blob store exactly as they were; when the user id
is well formed the body is `File cannot be empty`. -/
theorem Upload_empty_file_rejected (lib : Lib) (h : file.FileHandler) (env : file.UploadEnv)
    (userIDString : String) (f : FileHeader) (s : State) (hsize : f.Size = 0) :
    (file.Upload lib h env userIDString (.ok f) s).1.status = 400 ∧
    (file.Upload lib h env userIDString (.ok f) s).2 = s ∧
    (∀ u, lib.uuidParse userIDString = some u →
      (file.Upload lib h env userIDString (.ok f) s).1 =
        ⟨400, [], errorBody "File cannot be empty"⟩) := by
  unfold file.Upload
  rcases hp : lib.uuidParse userIDString with _ | u
  · simp
  · simp [hsize]

/-- Witness for C9: an empty part named `empty.bin`. -/
theorem Upload_empty_file_rejected_witness :
    (file.Upload sampleLib sampleFiles (sampleUploadEnv 0) sampleUser
      (.ok ⟨"empty.bin", 0, [], ""⟩) emptyState).1.status = 400 ∧
    (file.Upload sampleLib sampleFiles (sampleUploadEnv 0) sampleUser
      (.ok ⟨"empty.bin", 0, [], ""⟩) emptyState).2 = emptyState :=
  let h := Upload_empty_file_rejected sampleLib sampleFiles (sampleUploadEnv 0) sampleUser
    ⟨"empty.bin", 0, [], ""⟩ emptyState rfl
  ⟨h.1, h.2.1⟩

/-- No run of `Upload` writes to the cache. -/
theorem Upload_cache_untouched (lib : Lib) (h : file.FileHandler) (env : file.UploadEnv)
    (userIDString : String) (form : Except String FileHeader) (s : State) :
    (file.Upload lib h env userIDString form s).2.cache = s.cache := by
  unfold file.Upload
  rcases lib.uuidParse userIDString with _ | u
  · rfl
  · rcases form with e | f
    · rfl
    · dsimp only
      by_cases hz : (f.Size == 0) = true
      · simp [hz]
      · simp only [hz, if_false]
        rcases env.mkdirErr with _ | e <;> [skip; rfl]
        rcases env.saveErr with _ | e <;> [skip; rfl]
        rcases env.beginErr with _ | e <;> [skip; rfl]
        rcases env.execErr with _ | e <;> [skip; rfl]
        rcases env.commitErr with _ | e <;> rfl

/-- A run of `Upload` that answers 200 parsed the user id, received a part
and appended exactly one row, carrying the fresh file id, the owner and the
original name, to `files`. -/
theorem Upload_success (lib : Lib) (h : file.FileHandler) (env : file.UploadEnv)
    (userIDString : String) (form : Except String FileHeader) (s : State)
    (hok : (file.Upload lib h env userIDString form s).1.status = 200) :
    ∃ userID f row, lib.uuidParse userIDString = some userID ∧ form = .ok f ∧
      row.id = env.fileID ∧ row.user_id = userID ∧ row.original_name = f.Filename ∧
      (file.Upload lib h env userIDString form s).2.db.files = s.db.files ++ [row] := by
  revert hok
  unfold file.Upload
  rcases hp : lib.uuidParse userIDString with _ | u
  · intro hok; simp at hok
  · rcases form with e | f
    · intro hok; simp at hok
    · dsimp only
      by_cases hz : (f.Size == 0) = true
      · intro hok; simp [hz] at hok
      · simp only [hz, if_false]
        rcases env.mkdirErr with _ | e <;> [skip; (intro hok; simp at hok)]
        rcases env.saveErr with _ | e <;> [skip; (intro hok; simp at hok)]
        rcases env.beginErr with _ | e <;> [skip; (intro hok; simp at hok)]
        rcases env.execErr with _ | e <;> [skip; (intro hok; simp at hok)]
        rcases env.commitErr with _ | e <;> [skip; (intro hok; simp at hok)]
        intro _
        exact ⟨u, f, _, rfl, rfl, rfl, rfl, rfl, rfl⟩

theorem mem_selectUserFiles (db : DB) (userID : String) (row : FileRow)
    (hrow : row ∈ db.files) (hu : row.user_id = userID) :
    ∃ fr ∈ file.selectUserFiles db userID, fr.ID = row.id ∧ fr.OriginalName = row.original_name := by
  unfold file.selectUserFiles
  refine ⟨⟨row.id, row.name, row.original_name, row.size, row.mime_type, row.storage_path,
    row.created_at⟩, ?_, rfl, rfl⟩
  rw [List.mem_map]
  refine ⟨row, ?_, rfl⟩
  rw [(List.perm_insertionSort _ _).mem_iff, List.mem_filter]
  exact ⟨hrow, by simp [hu]⟩

/-- C4, as amended.  A successful `Upload` by an owner leaves the cache
exactly as it was.  Hence the next `GetUserFiles` of that owner, when the
cache still holds a live entry under `user_files:<owner>`, answers with the
cached bytes; and when it holds no live entry and the query and the
serialisation succeed, it answers with the serialisation of a non-empty
listing that contains the newly uploaded file. -/
theorem GetUserFiles_after_Upload (lib : Lib) (h : file.FileHandler) (uenv : file.UploadEnv)
    (lenv : file.ListEnv) (U : String) (form : Except String FileHeader) (s : State)
    (hok : (file.Upload lib h uenv U form s).1.status = 200) :
    (file.Upload lib h uenv U form s).2.cache = s.cache ∧
    ∃ userID f, lib.uuidParse U = some userID ∧ form = .ok f ∧
      (∀ val, s.cache.Get lenv.now lenv.cacheGetErr ("user_files:" ++ userID) = some val →
        file.GetUserFiles lib lenv U (file.Upload lib h uenv U form s).2 =
          (⟨200, [], .data "application/json" val⟩, (file.Upload lib h uenv U form s).2)) ∧
      (s.cache.Get lenv.now lenv.cacheGetErr ("user_files:" ++ userID) = none →
        lenv.selectErr = false → lenv.marshalErr = false →
        ∃ files : List file.fileResponse,
          (file.GetUserFiles lib lenv U (file.Upload lib h uenv U form s).2).1 =
            ⟨200, [], .data "application/json"
              (lib.Marshal (.arr (files.map file.fileResponse.toJSON)))⟩ ∧
          ∃ fr ∈ files, fr.ID = uenv.fileID ∧ fr.OriginalName = f.Filename) := by
  have hc := Upload_cache_untouched lib h uenv U form s
  obtain ⟨userID, f, row, hp, hf, hid, hu, hname, hfiles⟩ := Upload_success lib h uenv U form s hok
  refine ⟨hc, userID, f, hp, hf, fun val hval => ?_, fun hnone hsel hmar => ?_⟩
  · unfold file.GetUserFiles
    simp only [hp, hc, hval]
  · obtain ⟨fr, hfr, h1, h2⟩ := mem_selectUserFiles (file.Upload lib h uenv U form s).2.db
      userID row (by rw [hfiles]; simp) hu
    refine ⟨file.selectUserFiles (file.Upload lib h uenv U form s).2.db userID, ?_,
      fr, hfr, by rw [h1, hid], by rw [h2, hname]⟩
    unfold file.GetUserFiles
    simp only [hp, hc, hnone, hsel, hmar, Bool.false_eq_true, if_false]
    rcases hl : file.selectUserFiles (file.Upload lib h uenv U form s).2.db userID with _ | ⟨a, l⟩
    · rw [hl] at hfr; simp at hfr
    · rfl

/-- Witness for C4 as amended: the sample upload into the empty state,
followed by a listing with an empty cache. -/
theorem GetUserFiles_after_Upload_witness :
    (file.Upload sampleLib sampleFiles (sampleUploadEnv Second) sampleUser
      (.ok sampleUpload) emptyState).2.cache = emptyState.cache :=
  (GetUserFiles_after_Upload sampleLib sampleFiles (sampleUploadEnv Second)
    ⟨2 * Second, false, false, false, false⟩ sampleUser (.ok sampleUpload) emptyState
    (by decide)).1

/-- Counterexample to C4 as stated.  In the empty state the owner lists the
files at second 0 (the listing `null` is cached for five minutes), uploads
`notes.txt` with success at second 1 and lists again at second 2: the cache
still holds the key, the answer is the cached `null`, not a listing with the
new file, although the table holds the file. -/
theorem GetUserFiles_stale_after_Upload :
    (file.Upload sampleLib sampleFiles (sampleUploadEnv Second) sampleUser (.ok sampleUpload)
      (file.GetUserFiles sampleLib ⟨0, false, false, false, false⟩ sampleUser
        emptyState).2).1.status = 200 ∧
    (file.Upload sampleLib sampleFiles (sampleUploadEnv Second) sampleUser (.ok sampleUpload)
      (file.GetUserFiles sampleLib ⟨0, false, false, false, false⟩ sampleUser
        emptyState).2).2.cache = [⟨"user_files:" ++ sampleUser, "null", file.listingTTL⟩] ∧
    (file.selectUserFiles
      (file.Upload sampleLib sampleFiles (sampleUploadEnv Second) sampleUser (.ok sampleUpload)
        (file.GetUserFiles sampleLib ⟨0, false, false, false, false⟩ sampleUser
          emptyState).2).2.db sampleUser).map (·.OriginalName) = ["notes.txt"] ∧
    2 * Second < 0 + file.listingTTL ∧
    (file.GetUserFiles sampleLib ⟨2 * Second, false, false, false, false⟩ sampleUser
      (file.Upload sampleLib sampleFiles (sampleUploadEnv Second) sampleUser (.ok sampleUpload)
        (file.GetUserFiles sampleLib ⟨0, false, false, false, false⟩ sampleUser
          emptyState).2).2).1.body = .data "application/json" "null" := by
  refine ⟨by decide, by decide, by decide, by decide, rfl⟩

/-! ## Start-up configuration -/

/-- C10. `NewAuthHandler` fails if and only if the secret has fewer than 32
bytes or the lifetime override is set (to a non-empty text, the only way
`os.Getenv` reports a variable as set) and is not a positive integer, that is
`strconv.Atoi` does not read it or reads a value that is zero or negative.
When the override is unset and the secret is long enough, the handler is
created with a lifetime of 24 hours. -/
theorem NewAuthHandler_fails_iff (jwtSecret expStr : String) :
    ((∃ e, auth.NewAuthHandler jwtSecret expStr = .error e) ↔
      (jwtSecret.utf8ByteSize < 32 ∨
        (expStr ≠ "" ∧ ¬ ∃ n, Atoi expStr = .ok n ∧ 0 < n))) ∧
    (32 ≤ jwtSecret.utf8ByteSize →
      auth.NewAuthHandler jwtSecret "" = .ok ⟨jwtSecret, 24 * Hour⟩) := by
  unfold auth.NewAuthHandler
  by_cases hs : jwtSecret.utf8ByteSize < 32
  · simp [hs]
  · have h24 : wrapInt64 (24 * Hour) = 24 * Hour := by decide
    simp only [hs, if_false, false_or, h24]
    refine ⟨?_, fun _ => by simp⟩
    by_cases he : expStr = ""
    · simp [he]
    · have hb : (expStr != "") = true := by simpa using he
      simp only [hb, if_true, ne_eq, he, not_false_eq_true, true_and]
      rcases ha : Atoi expStr with e | n
      · simp
      · by_cases hn : n ≤ 0
        · simp only [hn, if_true]
          constructor
          · rintro - ⟨m, hm, hpos⟩
            cases hm
            omega
          · intro _
            exact ⟨_, rfl⟩
        · simp only [hn, if_false]
          constructor
          · rintro ⟨e, he⟩
            cases he
          · intro hno
            exact absurd ⟨n, rfl, by omega⟩ hno

/-- Witness for C10: a secret of 32 bytes without override gives 24 hours, and
the override `0` makes the constructor fail. -/
theorem NewAuthHandler_fails_iff_witness :
    auth.NewAuthHandler sampleSecret "" = .ok ⟨sampleSecret, 24 * Hour⟩ ∧
    (∃ e, auth.NewAuthHandler sampleSecret "0" = .error e) :=
  ⟨(NewAuthHandler_fails_iff sampleSecret "").2 (by decide),
   (NewAuthHandler_fails_iff sampleSecret "0").1.2 (Or.inr ⟨by decide, by
      rintro ⟨n, hn, hpos⟩
      have h0 : Atoi "0" = .ok 0 := rfl
      rw [h0] at hn
      cases hn
      exact absurd hpos (by decide)⟩)⟩

/-! ## Storage paths -/

theorem extScan_no_slash : ∀ (rev acc : List Char), '/' ∉ acc → '/' ∉ extScan rev acc
  | [], _, _ => by simp [extScan]
  | ch :: rest, acc, h => by
    unfold extScan
    by_cases h1 : ch = '/'
    · simp [h1]
    · by_cases h2 : ch = '.'
      · subst h2
        have hdot : ('.' : Char) ≠ '/' := by decide
        have hdot2 : ('/' : Char) ≠ '.' := by decide
        simp [hdot, hdot2, h]
      · simp only [h1, h2, if_false]
        apply extScan_no_slash rest (ch :: acc)
        simp only [List.mem_cons, not_or]
        exact ⟨fun e => h1 e.symm, h⟩

theorem Ext_no_slash (path : String) : '/' ∉ (Ext path).data :=
  extScan_no_slash _ _ (by simp)

theorem splitSlash_ne_nil : ∀ l : List Char, splitSlash l ≠ []
  | [] => by simp [splitSlash]
  | ch :: rest => by
    unfold splitSlash
    rcases splitSlash rest with _ | ⟨seg, segs⟩
    · simp
    · by_cases h : ch = '/' <;> simp [h]

theorem splitSlash_of_no_slash : ∀ l : List Char, '/' ∉ l → splitSlash l = [l]
  | [], _ => rfl
  | ch :: rest, h => by
    simp only [List.mem_cons, not_or] at h
    unfold splitSlash
    rw [splitSlash_of_no_slash rest h.2]
    have : ch ≠ '/' := fun e => h.1 e.symm
    simp [this]

theorem splitSlash_append : ∀ x y : List Char,
    splitSlash (x ++ '/' :: y) = splitSlash x ++ splitSlash y
  | [], y => by
    have hy := splitSlash_ne_nil y
    show splitSlash ('/' :: y) = splitSlash [] ++ splitSlash y
    rw [splitSlash]
    rcases hs : splitSlash y with _ | ⟨seg, segs⟩
    · exact absurd hs hy
    · simp [hs, splitSlash]
  | ch :: x, y => by
    have hx := splitSlash_ne_nil x
    show splitSlash (ch :: (x ++ '/' :: y)) = splitSlash (ch :: x) ++ splitSlash y
    rw [splitSlash, splitSlash, splitSlash_append x y]
    rcases hs : splitSlash x with _ | ⟨seg, segs⟩
    · exact absurd hs hx
    · by_cases h : ch = '/' <;> simp [hs, h]

theorem cleanStep_plain (rooted : Bool) (stack : List String) (e : String)
    (he : plainElem e) : cleanStep rooted stack e = e :: stack := by
  obtain ⟨_, h1, h2, h3⟩ := he
  unfold cleanStep
  simp [h1, h2, h3]

theorem cleanStack_append_plain (rooted : Bool) (q n : String) (hn : plainElem n) :
    cleanStack rooted (q ++ "/" ++ n).data = n :: cleanStack rooted q.data := by
  have hd : (q ++ "/" ++ n).data = q.data ++ '/' :: n.data := by
    simp only [String.data_append]
    show q.data ++ ['/'] ++ n.data = q.data ++ '/' :: n.data
    simp
  unfold cleanStack
  rw [hd, splitSlash_append, splitSlash_of_no_slash n.data hn.1, List.map_append,
    List.foldl_append]
  simp only [List.map_cons, List.map_nil, List.foldl_cons, List.foldl_nil]
  exact cleanStep_plain rooted _ _ hn

theorem cleanStack_plain (rooted : Bool) (u : String) (hu : plainElem u) :
    cleanStack rooted u.data = [u] := by
  unfold cleanStack
  rw [splitSlash_of_no_slash u.data hu.1]
  simp only [List.map_cons, List.map_nil, List.foldl_cons, List.foldl_nil]
  exact cleanStep_plain rooted _ _ hu

theorem intercalate_go_snoc (sep n : String) : ∀ (xs : List String) (acc : String),
    String.intercalate.go acc sep (xs ++ [n]) = String.intercalate.go acc sep xs ++ sep ++ n
  | [], acc => by simp [String.intercalate.go]
  | x :: xs, acc => by
    simp only [List.cons_append, String.intercalate.go]
    exact intercalate_go_snoc sep n xs _

theorem intercalate_snoc (sep n : String) (xs : List String) (hxs : xs ≠ []) :
    String.intercalate sep (xs ++ [n]) = String.intercalate sep xs ++ sep ++ n := by
  rcases xs with _ | ⟨x, xs⟩
  · exact absurd rfl hxs
  · simp only [List.cons_append, String.intercalate]
    exact intercalate_go_snoc sep n xs x

theorem append_ne_empty_right (a b : String) (hb : b ≠ "") : a ++ b ≠ "" := by
  rw [string_ne_empty_iff] at hb ⊢
  rw [String.data_append]
  intro h
  exact hb (List.append_eq_nil.1 h).2

theorem intercalate_snoc_ne_empty (u : String) (xs : List String) (hu : u ≠ "") :
    String.intercalate "/" (xs ++ [u]) ≠ "" := by
  rcases xs with _ | ⟨x, xs⟩
  · simpa [String.intercalate, String.intercalate.go] using hu
  · rw [intercalate_snoc "/" u (x :: xs) (by simp)]
    exact append_ne_empty_right _ _ hu

theorem Clean_eq (p : String) (hp : p ≠ "") :
    Clean p =
      if ((if (p.data.head? == some '/') = true then "/" else "") ++
          String.intercalate "/" (cleanStack (p.data.head? == some '/') p.data).reverse) = ""
      then "."
      else (if (p.data.head? == some '/') = true then "/" else "") ++
          String.intercalate "/" (cleanStack (p.data.head? == some '/') p.data).reverse := by
  unfold Clean cleanStack
  simp only [hp, if_false]

/-- Cleaning a path that ends in a kept element and is extended by one more
plain element appends that element. -/
theorem Clean_append_plain (q u n : String) (rest : List String) (hq : q ≠ "")
    (hstack : cleanStack (q.data.head? == some '/') q.data = u :: rest)
    (hu : u ≠ "") (hn : plainElem n) :
    Clean (q ++ "/" ++ n) = Clean q ++ "/" ++ n := by
  have hqd : q.data ≠ [] := (string_ne_empty_iff q).1 hq
  have hhead : (q ++ "/" ++ n).data.head? = q.data.head? := by
    simp only [String.data_append]
    rcases hq2 : q.data with _ | ⟨c, cs⟩
    · exact absurd hq2 hqd
    · rfl
  have hne : q ++ "/" ++ n ≠ "" := append_ne_empty_right _ _ hn.2.1
  rw [Clean_eq _ hne, Clean_eq q hq, hhead, cleanStack_append_plain _ q n hn, hstack]
  simp only [List.reverse_cons]
  rw [intercalate_snoc "/" n (rest.reverse ++ [u]) (by simp)]
  have h1 := intercalate_snoc_ne_empty u rest.reverse hu
  have h2 : ∀ pre : String, pre ++ String.intercalate "/" (rest.reverse ++ [u]) ≠ "" :=
    fun pre => append_ne_empty_right _ _ h1
  have h3 : ∀ pre : String,
      pre ++ (String.intercalate "/" (rest.reverse ++ [u]) ++ "/" ++ n) ≠ "" :=
    fun pre => append_ne_empty_right _ _ (append_ne_empty_right _ _ hn.2.1)
  rw [if_neg (h2 _), if_neg (h3 _)]
  simp only [String.append_assoc]

theorem Clean_plain (u : String) (hu : plainElem u) : Clean u = u := by
  have hhead : (u.data.head? == some '/') = false := by
    rcases hd : u.data with _ | ⟨c, cs⟩
    · rfl
    · have hc : c ≠ '/' := by
        intro e
        apply hu.1
        rw [hd, e]
        simp
      simp [hc]
  rw [Clean_eq u hu.2.1, hhead, cleanStack_plain false u hu]
  simp [String.intercalate, String.intercalate.go, hu.2.1]

theorem Join_two_plain (u n : String) (hu : plainElem u) (hn : plainElem n) :
    Join [u, n] = u ++ "/" ++ n := by
  have hj : Join [u, n] = Clean (u ++ "/" ++ n) := by
    unfold Join
    simp [hu.2.1, hn.2.1, String.intercalate, String.intercalate.go]
  rw [hj, Clean_append_plain u u n [] hu.2.1 (cleanStack_plain _ u hu) hu.2.1 hn,
    Clean_plain u hu]

/-- The full path of a blob is the directory of its owner followed by the
stored name, whatever the storage directory is. -/
theorem Join_dir_plain (d u n : String) (hu : plainElem u) (hn : plainElem n) :
    Join [d, u ++ "/" ++ n] = Join [d, u] ++ "/" ++ n := by
  have hun : u ++ "/" ++ n ≠ "" := append_ne_empty_right _ _ hn.2.1
  by_cases hd : d = ""
  · have h1 : Join [d, u ++ "/" ++ n] = Clean (u ++ "/" ++ n) := by
      unfold Join
      simp [hd, hun, String.intercalate, String.intercalate.go]
    have h2 : Join [d, u] = Clean u := by
      unfold Join
      simp [hd, hu.2.1, String.intercalate, String.intercalate.go]
    rw [h1, h2]
    exact Clean_append_plain u u n [] hu.2.1 (cleanStack_plain _ u hu) hu.2.1 hn
  · have h1 : Join [d, u ++ "/" ++ n] = Clean (d ++ "/" ++ u ++ "/" ++ n) := by
      unfold Join
      have hf : List.filter (fun x => decide (x ≠ "")) [d, u ++ "/" ++ n] =
          [d, u ++ "/" ++ n] := by simp [hd, hun]
      rw [hf]
      simp [String.intercalate, String.intercalate.go, String.append_assoc]
    have h2 : Join [d, u] = Clean (d ++ "/" ++ u) := by
      unfold Join
      simp [hd, hu.2.1, String.intercalate, String.intercalate.go]
    rw [h1, h2]
    exact Clean_append_plain (d ++ "/" ++ u) u n _ (append_ne_empty_right _ _ hu.2.1)
      (cleanStack_append_plain _ d u hu) hu.2.1 hn

theorem isUUIDText_props (s : String) (h : isUUIDText s = true) :
    s.data.length = 36 ∧ '/' ∉ s.data := by
  unfold isUUIDText at h
  simp only [Bool.and_eq_true, beq_iff_eq, List.all_eq_true] at h
  obtain ⟨⟨⟨⟨⟨⟨hlen, hall⟩, _⟩, _⟩, _⟩, _⟩, _⟩ := h
  refine ⟨hlen, fun hmem => ?_⟩
  have := hall '/' hmem
  exact absurd this (by decide)

theorem plainElem_of_length (s : String) (hs : '/' ∉ s.data) (hlen : 36 ≤ s.data.length) :
    plainElem s := by
  refine ⟨hs, ?_, ?_, ?_⟩ <;>
  · intro e
    rw [e] at hlen
    exact absurd hlen (by decide)

theorem plainElem_of_uuid (s : String) (h : isUUIDText s = true) : plainElem s := by
  obtain ⟨hlen, hs⟩ := isUUIDText_props s h
  exact plainElem_of_length s hs (by omega)

theorem plainElem_stored_name (id filename : String) (h : isUUIDText id = true) :
    plainElem (id ++ Ext filename) := by
  obtain ⟨hlen, hs⟩ := isUUIDText_props id h
  apply plainElem_of_length
  · rw [String.data_append, List.mem_append, not_or]
    exact ⟨hs, Ext_no_slash filename⟩
  · rw [String.data_append, List.length_append]
    omega

theorem owner_paths_differ (u u' n n' : String) (hu : isUUIDText u = true)
    (hu' : isUUIDText u' = true) (hne : u ≠ u') : u ++ "/" ++ n ≠ u' ++ "/" ++ n' := by
  intro e
  apply hne
  have hd := congrArg String.data e
  simp only [String.data_append, List.append_assoc] at hd
  have hl : u.data.length = u'.data.length := by
    rw [(isUUIDText_props u hu).1, (isUUIDText_props u' hu').1]
  have := (List.append_inj hd hl).1
  cases u; cases u'
  simp_all

/-- A run of `Upload` that answers 200 has made the directory of the owner,
written the part to the full path and appended the row built from the parsed
owner id, the fresh name id and the extension of the original name. -/
theorem Upload_success_row (lib : Lib) (h : file.FileHandler) (env : file.UploadEnv)
    (userIDString : String) (form : Except String FileHeader) (s : State)
    (hok : (file.Upload lib h env userIDString form s).1.status = 200) :
    ∃ userID f row, lib.uuidParse userIDString = some userID ∧ form = .ok f ∧
      (file.Upload lib h env userIDString form s).2.db.files = s.db.files ++ [row] ∧
      row.user_id = userID ∧ row.original_name = f.Filename ∧
      row.name = env.nameID ++ Ext f.Filename ∧
      row.storage_path = Join [userID, env.nameID ++ Ext f.Filename] ∧
      (file.Upload lib h env userIDString form s).2.blobs =
        (s.blobs.MkdirAll (Join [h.storageDir, userID])).Save
          (Join [h.storageDir, Join [userID, env.nameID ++ Ext f.Filename]]) f.content := by
  revert hok
  unfold file.Upload
  rcases hp : lib.uuidParse userIDString with _ | u
  · intro hok; simp at hok
  · rcases form with e | f
    · intro hok; simp at hok
    · dsimp only
      by_cases hz : (f.Size == 0) = true
      · intro hok; simp [hz] at hok
      · simp only [hz, if_false]
        rcases env.mkdirErr with _ | e <;> [skip; (intro hok; simp at hok)]
        rcases env.saveErr with _ | e <;> [skip; (intro hok; simp at hok)]
        rcases env.beginErr with _ | e <;> [skip; (intro hok; simp at hok)]
        rcases env.execErr with _ | e <;> [skip; (intro hok; simp at hok)]
        rcases env.commitErr with _ | e <;> [skip; (intro hok; simp at hok)]
        intro _
        exact ⟨u, f, _, rfl, rfl, rfl, rfl, rfl, rfl, rfl, rfl⟩

theorem mem_dirs_MkdirAll (b : BlobStore) (path : String) : path ∈ (b.MkdirAll path).dirs := by
  unfold BlobStore.MkdirAll
  by_cases h : path ∈ b.dirs
  · simp [h]
  · simp [h]

/-- C11. When `Upload` answers 200 for the owner id `u` (a text as
`UUID.String` returns it) and a part with any client-supplied filename, the
storage path of the row it appends is `u`, a slash, and the fresh name id
followed by the extension of the original filename; the extension and the
stored name hold no slash, so the path has exactly the two elements `u` and
the stored name; the blob is written directly inside the directory made for
`u` under the storage directory; and the storage path recorded by a second
successful upload for a different owner id is a different path. -/
theorem Upload_storage_path_in_owner_directory (lib : Lib) (h : file.FileHandler)
    (env env' : file.UploadEnv) (U U' : String) (form form' : Except String FileHeader)
    (s s' : State)
    (hok : (file.Upload lib h env U form s).1.status = 200)
    (hok' : (file.Upload lib h env' U' form' s').1.status = 200)
    (hU : ∀ u, lib.uuidParse U = some u → isUUIDText u = true)
    (hU' : ∀ u, lib.uuidParse U' = some u → isUUIDText u = true)
    (hid : isUUIDText env.nameID = true) (hid' : isUUIDText env'.nameID = true) :
    ∃ u f row u' row', lib.uuidParse U = some u ∧ form = .ok f ∧
      (file.Upload lib h env U form s).2.db.files = s.db.files ++ [row] ∧
      row.user_id = u ∧ row.original_name = f.Filename ∧
      row.storage_path = u ++ "/" ++ (env.nameID ++ Ext f.Filename) ∧
      '/' ∉ (Ext f.Filename).data ∧
      splitSlash row.storage_path.data = [u.data, (env.nameID ++ Ext f.Filename).data] ∧
      Join [h.storageDir, u] ∈ (file.Upload lib h env U form s).2.blobs.dirs ∧
      (Join [h.storageDir, u] ++ "/" ++ (env.nameID ++ Ext f.Filename), f.content) ∈
        (file.Upload lib h env U form s).2.blobs.files ∧
      lib.uuidParse U' = some u' ∧
      (file.Upload lib h env' U' form' s').2.db.files = s'.db.files ++ [row'] ∧
      row'.user_id = u' ∧
      (u ≠ u' → row.storage_path ≠ row'.storage_path) := by
  obtain ⟨u, f, row, hp, hf, hfiles, huser, horig, _, hpath, hblobs⟩ :=
    Upload_success_row lib h env U form s hok
  obtain ⟨u', f', row', hp', _, hfiles', huser', _, _, hpath', _⟩ :=
    Upload_success_row lib h env' U' form' s' hok'
  have hu := hU u hp
  have hu' := hU' u' hp'
  have hpu := plainElem_of_uuid u hu
  have hpn := plainElem_stored_name env.nameID f.Filename hid
  have hpu' := plainElem_of_uuid u' hu'
  have hpn' := plainElem_stored_name env'.nameID f'.Filename hid'
  rw [Join_two_plain u _ hpu hpn] at hpath hblobs
  rw [Join_two_plain u' _ hpu' hpn'] at hpath'
  rw [Join_dir_plain h.storageDir u _ hpu hpn] at hblobs
  refine ⟨u, f, row, u', row', hp, hf, hfiles, huser, horig, hpath, Ext_no_slash _, ?_, ?_, ?_,
    hp', hfiles', huser', fun hne => ?_⟩
  · rw [hpath]
    have hd : (u ++ "/" ++ (env.nameID ++ Ext f.Filename)).data =
        u.data ++ '/' :: (env.nameID ++ Ext f.Filename).data := by
      simp only [String.data_append]
      show u.data ++ ['/'] ++ _ = _
      simp
    rw [hd, splitSlash_append, splitSlash_of_no_slash _ hpu.1, splitSlash_of_no_slash _ hpn.1]
    rfl
  · rw [hblobs]
    exact mem_dirs_MkdirAll _ _
  · rw [hblobs]
    simp [BlobStore.Save]
  · rw [hpath, hpath']
    exact owner_paths_differ u u' _ _ hu hu' hne

/-- Witness for C11: the sample user uploads `notes.txt`, a second user
uploads a file whose name tries to climb out of the directory. -/
theorem Upload_storage_path_in_owner_directory_witness :
    ∃ u f row u' row', sampleLib.uuidParse sampleUser = some u ∧
      (Except.ok sampleUpload : Except String FileHeader) = .ok f ∧
      (file.Upload sampleLib sampleFiles (sampleUploadEnv 0) sampleUser (.ok sampleUpload)
        emptyState).2.db.files = emptyState.db.files ++ [row] ∧
      row.user_id = u ∧ row.original_name = f.Filename ∧
      row.storage_path = u ++ "/" ++ ((sampleUploadEnv 0).nameID ++ Ext f.Filename) ∧
      '/' ∉ (Ext f.Filename).data ∧
      splitSlash row.storage_path.data =
        [u.data, ((sampleUploadEnv 0).nameID ++ Ext f.Filename).data] ∧
      Join [sampleFiles.storageDir, u] ∈
        (file.Upload sampleLib sampleFiles (sampleUploadEnv 0) sampleUser (.ok sampleUpload)
          emptyState).2.blobs.dirs ∧
      (Join [sampleFiles.storageDir, u] ++ "/" ++ ((sampleUploadEnv 0).nameID ++ Ext f.Filename),
          f.content) ∈
        (file.Upload sampleLib sampleFiles (sampleUploadEnv 0) sampleUser (.ok sampleUpload)
          emptyState).2.blobs.files ∧
      sampleLib.uuidParse "22222222-2222-2222-2222-222222222222" = some u' ∧
      (file.Upload sampleLib sampleFiles (sampleUploadEnv 7)
        "22222222-2222-2222-2222-222222222222"
        (.ok ⟨"../../etc/passwd.d/x.conf", 3, [], "abc"⟩) uploadedState).2.db.files =
        uploadedState.db.files ++ [row'] ∧
      row'.user_id = u' ∧
      (u ≠ u' → row.storage_path ≠ row'.storage_path) :=
  Upload_storage_path_in_owner_directory sampleLib sampleFiles (sampleUploadEnv 0)
    (sampleUploadEnv 7) sampleUser "22222222-2222-2222-2222-222222222222"
    (.ok sampleUpload) (.ok ⟨"../../etc/passwd.d/x.conf", 3, [], "abc"⟩)
    emptyState uploadedState (by decide) (by decide)
    (by
      intro u hu
      have : sampleLib.uuidParse sampleUser = some sampleUser := by decide
      rw [this] at hu
      cases hu
      decide)
    (by
      intro u hu
      have : sampleLib.uuidParse "22222222-2222-2222-2222-222222222222" =
          some "22222222-2222-2222-2222-222222222222" := by decide
      rw [this] at hu
      cases hu
      decide)
    (by decide) (by decide)

/-- The storage path and blob of the upload whose filename tries to climb out
of the directory, computed. -/
theorem Upload_hostile_filename_path :
    (file.Upload sampleLib sampleFiles (sampleUploadEnv 7)
      "22222222-2222-2222-2222-222222222222"
      (.ok ⟨"../../etc/passwd.d/x.conf", 3, [], "abc"⟩) emptyState).2.db.files.map
        (·.storage_path) =
      ["22222222-2222-2222-2222-222222222222/aaaaaaaa-aaaa-aaaa-aaaa-aaaaaaaaaaaa.conf"] ∧
    (file.Upload sampleLib sampleFiles (sampleUploadEnv 7)
      "22222222-2222-2222-2222-222222222222"
      (.ok ⟨"../../etc/passwd.d/x.conf", 3, [], "abc"⟩) emptyState).2.blobs.files =
      [("uploads/22222222-2222-2222-2222-222222222222/aaaaaaaa-aaaa-aaaa-aaaa-aaaaaaaaaaaa.conf",
        "abc")] := by
  decide

/-! ## The listing -/

/-- On the database path (no live cache entry, query and serialisation
succeed) `GetUserFiles` answers 200 with the serialisation of the listing:
one object per `files` row of the owner, each with the keys `id`, `name`,
`filename`, `size`, `mime_type`, `path`, `created_at`, as a JSON array when
the owner has a row and as `null` when the owner has none. -/
theorem GetUserFiles_database_path (lib : Lib) (env : file.ListEnv) (U u : String) (s : State)
    (hp : lib.uuidParse U = some u)
    (hmiss : s.cache.Get env.now env.cacheGetErr ("user_files:" ++ u) = none)
    (hsel : env.selectErr = false) (hmar : env.marshalErr = false) :
    (file.GetUserFiles lib env U s).1 =
      ⟨200, [], .data "application/json" (lib.Marshal (file.filesJSON (file.selectUserFiles s.db u)))⟩ ∧
    (file.selectUserFiles s.db u).length = (s.db.files.filter fun f => f.user_id == u).length ∧
    (∀ fr ∈ file.selectUserFiles s.db u, ∃ fields, fr.toJSON = .obj fields ∧
      fields.map Prod.fst =
        ["id", "name", "filename", "size", "mime_type", "path", "created_at"]) ∧
    ((s.db.files.filter fun f => f.user_id == u) ≠ [] →
      file.filesJSON (file.selectUserFiles s.db u) =
        .arr ((file.selectUserFiles s.db u).map file.fileResponse.toJSON)) ∧
    ((s.db.files.filter fun f => f.user_id == u) = [] →
      file.filesJSON (file.selectUserFiles s.db u) = .null) := by
  have hlen : (file.selectUserFiles s.db u).length =
      (s.db.files.filter fun f => f.user_id == u).length := by
    unfold file.selectUserFiles
    rw [List.length_map, List.length_insertionSort]
  refine ⟨?_, hlen, fun fr _ => ⟨_, rfl, rfl⟩, fun hne => ?_, fun he => ?_⟩
  · unfold file.GetUserFiles
    simp only [hp, hmiss, hsel, hmar, Bool.false_eq_true, if_false]
  · rcases hl : file.selectUserFiles s.db u with _ | ⟨a, l⟩
    · rw [hl] at hlen
      exact absurd (List.length_eq_zero.1 hlen.symm) hne
    · rfl
  · rw [he] at hlen
    rw [List.length_eq_zero.1 hlen]
    rfl

/-- C12, evaluation at the failing input.  The sample user owns no file and
nothing is cached: `GetUserFiles` answers 200 with the body `null`, which is
not the text `[]` of the empty array. -/
theorem GetUserFiles_no_files_body_null :
    file.selectUserFiles emptyState.db sampleUser = [] ∧
    (file.GetUserFiles sampleLib ⟨0, false, false, false, false⟩ sampleUser emptyState).1 =
      ⟨200, [], .data "application/json" "null"⟩ ∧
    sampleLib.Marshal (.arr []) = "[]" ∧
    ("null" : String) ≠ "[]" :=
  ⟨by decide, rfl, by decide, by decide⟩

end FileShare
